import Mathlib

/-!
# try-cb-golang: the travel booking backend

A shallow embedding of `main.go`: the bearer-token check
(`createJwtToken`, `decodeAuthUserOrFail`), the airport query builder
(`AirportSearch`), and the account and booking handlers (`UserLogin`,
`UserSignup`, `UserBookFlight`) over an explicit document store with
per-document version tokens (CAS).

Conventions of the embedding.

* A Go `string` is a Lean `String` (well-formed UTF-8); `len` is the UTF-8
  byte length.  A Go slice is a `List`; the nil slice and the empty slice are
  both `[]` (no handler modelled here tests a slice against nil).
* A handler that writes to its `http.ResponseWriter` returns the writer it
  leaves behind.  A Go run-time panic is an `Except.error` of `GoPanic`.
* Libraries the repository imports (jwt-go, gocb, uuid, time, strings) are
  not part of its source.  They are modelled by the smallest interface the
  handlers use; what cannot be computed from the handler's inputs (the wire
  format of a token, the clock, the random identifiers, a failing write) is
  supplied by an explicit environment argument.
-/

set_option autoImplicit false

deriving instance DecidableEq for Except

namespace TryCb

/-! ## Errors, panics and the response writer -/

/-- Go `error` values the handlers create or receive: the five sentinels of
`main.go` (lines 32-38), the three gocb sentinels the handlers can meet, and
any other error, identified by its message. -/
inductive GoError where
  | ErrUserExists
  | ErrUserNotFound
  | ErrBadPassword
  | ErrBadAuthHeader
  | ErrBadAuth
  | ErrDocumentNotFound
  | ErrDocumentExists
  | ErrCasMismatch
  | other (msg : String)
  deriving DecidableEq, Repr

/-- The message of an error, `err.Error()`. -/
def GoError.Error : GoError → String
  | .ErrUserExists => "user already exists"
  | .ErrUserNotFound => "user does not exist"
  | .ErrBadPassword => "password does not match"
  | .ErrBadAuthHeader => "bad authentication header format"
  | .ErrBadAuth => "invalid auth token"
  | .ErrDocumentNotFound => "document not found"
  | .ErrDocumentExists => "document exists"
  | .ErrCasMismatch => "cas mismatch"
  | .other msg => msg

/-- Run-time panics of the Go code: a slice index out of range, and a failed
single-value type assertion. -/
inductive GoPanic where
  | indexOutOfRange (index len : Nat)
  | typeAssertion (wanted : String)
  deriving DecidableEq, Repr

/-- The failure object of `main.go` line 93. -/
structure jsonFailure where
  Failure : String
  deriving DecidableEq, Repr

/-- One write to the response body: a marshalled `jsonFailure`, or the
encoding of the handler's response value. -/
inductive Written (α : Type) where
  | failure (f : jsonFailure)
  | data (d : α)
  deriving DecidableEq, Repr

/-- The observable state of an `http.ResponseWriter`: the status code once it
has been sent, and the writes to the body in order. -/
structure ResponseWriter (α : Type) where
  status : Option Nat
  body : List (Written α)
  deriving DecidableEq, Repr

/-- A writer nothing has been written to. -/
def ResponseWriter.fresh {α : Type} : ResponseWriter α := ⟨none, []⟩

/-- The status is sent by the first call, `w.WriteHeader(code)`; later calls
change nothing. -/
def ResponseWriter.WriteHeader {α : Type} (w : ResponseWriter α) (code : Nat) :
    ResponseWriter α :=
  match w.status with
  | none => { w with status := some code }
  | some _ => w

/-- A write to the body, `w.Write(b)`; it sends status 200 first when no
status has been sent. -/
def ResponseWriter.Write {α : Type} (w : ResponseWriter α) (b : Written α) :
    ResponseWriter α :=
  let w1 := w.WriteHeader 200
  { w1 with body := w1.body ++ [b] }

/-- The function `writeJsonFailure` (line 97): marshal the error message, send the code,
write the bytes.  Marshalling a struct with one string field cannot fail. -/
def writeJsonFailure {α : Type} (w : ResponseWriter α) (code : Nat) (err : GoError) :
    ResponseWriter α :=
  let failObj : jsonFailure := { Failure := err.Error }
  (w.WriteHeader code).Write (.failure failObj)

/-- A request as the handlers read it: header values (`Header.Get`, the empty
string for an absent header), form values, and the outcome of decoding the
JSON body into the handler's request type. -/
structure Request (β : Type) where
  Header : String → String
  FormValue : String → String
  Body : Except GoError β

/-- The function `decodeReqOrFail` (line 111): the decoded body, or a 500 failure. -/
def decodeReqOrFail {α β : Type} (w : ResponseWriter α) (req : Request β) :
    ResponseWriter α × Option β :=
  match req.Body with
  | .error err => (writeJsonFailure w 500 err, none)
  | .ok data => (w, some data)

/-- The outcome of `json.NewEncoder(w).Encode(data)` for the response types of
`main.go`: strings, lists of strings and finite numbers are always accepted. -/
def jsonEncode {α : Type} (data : α) : Except GoError α := .ok data

/-- The function `encodeRespOrFail` (line 120). -/
def encodeRespOrFail {α : Type} (w : ResponseWriter α) (data : α) : ResponseWriter α :=
  match jsonEncode data with
  | .error err => writeJsonFailure w 500 err
  | .ok d => w.Write (.data d)

/-- The type `jsonContext` (line 87). -/
abbrev jsonContext := List String

/-- The method `jsonContext.Add` (line 89). -/
def jsonContext.Add (c : jsonContext) (msg : String) : jsonContext := c ++ [msg]

/-! ## Strings -/

/-- The Go builtin `len` on a string: its length in bytes. -/
def len (s : String) : Nat := s.utf8ByteSize

/-- Worker of `SplitN` on the characters of the string. -/
def SplitNAux (sep : Char) : Nat → List Char → List (List Char)
  | 0, _ => []
  | 1, s => [s]
  | n + 2, s =>
    match s.span (fun c => c != sep) with
    | (_, []) => [s]
    | (a, _ :: rest) => a :: SplitNAux sep (n + 1) rest

/-- The call `strings.SplitN(s, sep, n)` for a one-character separator and
`n ≥ 0`: at most `n` pieces, the last one the unsplit remainder. -/
def SplitN (s : String) (sep : Char) (n : Nat) : List String :=
  (SplitNAux sep n s.data).map String.mk

/-- Indexing a slice, `xs[i]`; out of range it panics. -/
def index {γ : Type} (xs : List γ) (i : Nat) : Except GoPanic γ :=
  match xs.get? i with
  | some x => .ok x
  | none => .error (.indexOutOfRange i xs.length)

/-! ## Bearer tokens

jwt-go is modelled at the level the handlers use it.  A decoded token is its
signing method, its claims and an ideal signature: the signature segment is
described by the key whose holder produced it over this header and these
claims (`none` for a segment no key verifies).  The compact serialisation
(base64url of JSON, three segments) is an argument, `JwtLib`, of which only
the round trip `decode (encode t) = some t` is used. -/

/-- The signing methods jwt-go registers. -/
inductive SigningMethod where
  | HS256 | HS384 | HS512
  | RS256 | RS384 | RS512
  | ES256 | ES384 | ES512
  | PS256 | PS384 | PS512
  | NONE
  deriving DecidableEq, Repr

/-- The type test `token.Method.(*jwt.SigningMethodHMAC)` (line 152). -/
def SigningMethod.isHMAC : SigningMethod → Bool
  | .HS256 | .HS384 | .HS512 => true
  | _ => false

/-- A decoded JSON value, as far as the handlers look into it. -/
inductive JsonValue where
  | null
  | bool (b : Bool)
  | number (text : String)
  | string (s : String)
  | composite (text : String)
  deriving DecidableEq, Repr

/-- The type `jwt.MapClaims`: the entries of the claims object. -/
abbrev MapClaims := List (String × JsonValue)

/-- A decoded token. -/
structure Token where
  Method : SigningMethod
  Claims : MapClaims
  signedWith : Option String
  deriving DecidableEq, Repr

/-- The parts of jwt-go that depend on the wire format and on the clock: the
compact serialisation of a token, its inverse `ParseUnverified` (`none` for a
string that is not a well-formed token of a registered method), and
`MapClaims.Valid` at the time of the request, which accepts every claims
object without `exp`, `iat` and `nbf` entries. -/
structure JwtLib where
  encode : Token → String
  decode : String → Option Token
  claimsValid : MapClaims → Bool
  decode_encode : ∀ t : Token, decode (encode t) = some t
  claimsValid_untimed : ∀ c : MapClaims, c.lookup "exp" = none → c.lookup "iat" = none →
    c.lookup "nbf" = none → claimsValid c = true

/-- The signing secret (line 29). -/
def jwtSecret : String := "UNSECURE_SECRET_TOKEN"

/-- The call `jwt.NewWithClaims(method, claims)`: a token not yet signed. -/
def NewWithClaims (method : SigningMethod) (claims : MapClaims) : Token :=
  { Method := method, Claims := claims, signedWith := none }

/-- The method `SignedString(key)` with a byte-string key: an HMAC method signs
with it, every other method rejects the key type. -/
def Token.SignedString (lib : JwtLib) (t : Token) (key : String) : Except GoError String :=
  if t.Method.isHMAC then .ok (lib.encode { t with signedWith := some key })
  else .error (.other "key is of invalid type")

/-- The method `Verify` of the token's signing method with a byte-string key:
only an HMAC method accepts such a key, and the signature verifies exactly
under the key that produced it. -/
def Token.Verify (t : Token) (key : String) : Bool :=
  t.Method.isHMAC && decide (t.signedWith = some key)

/-- The call `jwt.Parse(tokenString, keyFunc)`: decode, look the key up,
validate the claims, verify the signature. -/
def Parse (lib : JwtLib) (tokenString : String) (keyFunc : Token → Except GoError String) :
    Except GoError Token :=
  match lib.decode tokenString with
  | none => .error (.other "token contains an invalid number of segments")
  | some token =>
    match keyFunc token with
    | .error err => .error err
    | .ok key =>
      if !lib.claimsValid token.Claims then .error (.other "token claims are not valid")
      else if !token.Verify key then .error (.other "signature is invalid")
      else .ok token

/-- The function `createJwtToken` (line 127). -/
def createJwtToken (lib : JwtLib) (user : String) : Except GoError String :=
  (NewWithClaims .HS256 [("user", .string user)]).SignedString lib jwtSecret

/-- The struct `AuthedUser` (line 133). -/
structure AuthedUser where
  Name : String
  deriving DecidableEq, Repr

/-- The key function handed to `jwt.Parse` (lines 150-157). -/
def keyFunc (token : Token) : Except GoError String :=
  if !token.Method.isHMAC then .error (.other "unexpected signing method")
  else .ok jwtSecret

/-- The type assertion `v.(string)` on an interface value read from a map
(`none`: the key is absent, so the value is the nil interface). -/
def assertString : Option JsonValue → Except GoPanic String
  | some (.string s) => .ok s
  | _ => .error (.typeAssertion "string")

/-- The function `decodeAuthUserOrFail` (line 137).  The result is the writer, the
`AuthedUser` behind the pointer, and the returned boolean. -/
def decodeAuthUserOrFail {α β : Type} (lib : JwtLib) (w : ResponseWriter α) (req : Request β)
    (user : AuthedUser) : Except GoPanic (ResponseWriter α × AuthedUser × Bool) := do
  let mut authHeader := req.Header "Authorization"
  let mut authHeaderParts := SplitN authHeader ' ' 2
  if (← index authHeaderParts 0) ≠ "Bearer" then
    authHeader := req.Header "Authentication"
    authHeaderParts := SplitN authHeader ' ' 2
    if (← index authHeaderParts 0) ≠ "Bearer" then
      return (writeJsonFailure w 400 .ErrBadAuthHeader, user, false)
  let authToken ← index authHeaderParts 1
  match Parse lib authToken keyFunc with
  | .error _ => return (writeJsonFailure w 400 .ErrBadAuthHeader, user, false)
  | .ok token =>
    let authUser ← assertString (token.Claims.lookup "user")
    if authUser = "" then
      return (writeJsonFailure w 400 .ErrBadAuth, user, false)
    return (w, { user with Name := authUser }, true)

/-! ### A concrete serialisation

A small self-delimiting serialisation of tokens, with its round trip.  It
shows that `JwtLib` is inhabited and lets the handlers be evaluated on
concrete requests. -/

namespace Tagged

/-- A text, each character behind a mark, closed by a dot. -/
def encText : List Char → List Char
  | [] => ['.']
  | c :: cs => '+' :: c :: encText cs

/-- Inverse of `encText`: the text and what follows it. -/
def decText : List Char → Option (List Char × List Char)
  | [] => none
  | t :: rest =>
    if t = '.' then some ([], rest)
    else match rest with
      | [] => none
      | x :: rest2 =>
        if t = '+' then
          match decText rest2 with
          | some (cs, r) => some (x :: cs, r)
          | none => none
        else none

theorem decText_encText (cs rest : List Char) :
    decText (encText cs ++ rest) = some (cs, rest) := by
  induction cs with
  | nil => simp [encText]; unfold decText; simp
  | cons c cs ih =>
    simp only [encText, List.cons_append]
    unfold decText
    simp [ih]

/-- One letter per signing method. -/
def encMethod : SigningMethod → Char
  | .HS256 => 'a' | .HS384 => 'b' | .HS512 => 'c'
  | .RS256 => 'd' | .RS384 => 'e' | .RS512 => 'f'
  | .ES256 => 'g' | .ES384 => 'h' | .ES512 => 'i'
  | .PS256 => 'j' | .PS384 => 'k' | .PS512 => 'l'
  | .NONE => 'm'

/-- Inverse of `encMethod`. -/
def decMethod (c : Char) : Option SigningMethod :=
  [SigningMethod.HS256, .HS384, .HS512, .RS256, .RS384, .RS512, .ES256, .ES384, .ES512,
    .PS256, .PS384, .PS512, .NONE].find? (fun m => encMethod m == c)

theorem decMethod_encMethod (m : SigningMethod) : decMethod (encMethod m) = some m := by
  cases m <;> decide

/-- A JSON value behind a one-character tag. -/
def encValue : JsonValue → List Char
  | .null => ['n']
  | .bool true => ['t']
  | .bool false => ['f']
  | .number text => '#' :: encText text.data
  | .string s => 's' :: encText s.data
  | .composite text => 'o' :: encText text.data

/-- Inverse of `encValue`. -/
def decValue : List Char → Option (JsonValue × List Char)
  | [] => none
  | t :: rest =>
    if t = 'n' then some (.null, rest)
    else if t = 't' then some (.bool true, rest)
    else if t = 'f' then some (.bool false, rest)
    else match decText rest with
      | none => none
      | some (cs, r) =>
        if t = '#' then some (.number (String.mk cs), r)
        else if t = 's' then some (.string (String.mk cs), r)
        else if t = 'o' then some (.composite (String.mk cs), r)
        else none

theorem decValue_encValue (v : JsonValue) (rest : List Char) :
    decValue (encValue v ++ rest) = some (v, rest) := by
  cases v with
  | null => simp [encValue, decValue]
  | bool b => cases b <;> simp [encValue, decValue]
  | number text => simp [encValue, decValue, decText_encText]
  | string s => simp [encValue, decValue, decText_encText]
  | composite text => simp [encValue, decValue, decText_encText]

/-- The entries of a claims object, each behind `&`, closed by `!`. -/
def encClaims : MapClaims → List Char
  | [] => ['!']
  | (k, v) :: es => '&' :: (encText k.data ++ (encValue v ++ encClaims es))

/-- Inverse of `encClaims`, by recursion on a bound on the number of entries. -/
def decClaims : Nat → List Char → Option (MapClaims × List Char)
  | _, [] => none
  | 0, _ :: _ => none
  | fuel + 1, t :: rest =>
    if t = '!' then some ([], rest)
    else if t = '&' then
      match decText rest with
      | none => none
      | some (k, r1) =>
        match decValue r1 with
        | none => none
        | some (v, r2) =>
          match decClaims fuel r2 with
          | none => none
          | some (es, r3) => some ((String.mk k, v) :: es, r3)
    else none

theorem decClaims_encClaims (c : MapClaims) (rest : List Char) (fuel : Nat)
    (h : c.length < fuel) : decClaims fuel (encClaims c ++ rest) = some (c, rest) := by
  induction c generalizing fuel with
  | nil =>
    cases fuel with
    | zero => simp at h
    | succ n => simp [encClaims, decClaims]
  | cons e es ih =>
    obtain ⟨k, v⟩ := e
    cases fuel with
    | zero => simp at h
    | succ n =>
      have hn : es.length < n := by simpa using h
      simp [encClaims, decClaims, decText_encText, decValue_encValue, ih n hn]

/-- The signature segment: the signing key, or none. -/
def encKey : Option String → List Char
  | none => ['-']
  | some k => '=' :: encText k.data

/-- Inverse of `encKey`. -/
def decKey : List Char → Option (Option String × List Char)
  | [] => none
  | t :: rest =>
    if t = '-' then some (none, rest)
    else if t = '=' then
      match decText rest with
      | none => none
      | some (k, r) => some (some (String.mk k), r)
    else none

theorem decKey_encKey (k : Option String) (rest : List Char) :
    decKey (encKey k ++ rest) = some (k, rest) := by
  cases k <;> simp [encKey, decKey, decText_encText]

/-- Serialisation of a token. -/
def encode (t : Token) : String :=
  String.mk (encMethod t.Method :: (encClaims t.Claims ++ encKey t.signedWith))

/-- Parsing of a serialised token; nothing may follow it. -/
def decode (s : String) : Option Token :=
  match s.data with
  | [] => none
  | m :: rest =>
    match decMethod m, decClaims s.length rest with
    | some method, some (claims, r1) =>
      match decKey r1 with
      | some (key, []) => some { Method := method, Claims := claims, signedWith := key }
      | _ => none
    | _, _ => none

theorem encClaims_length (c : MapClaims) : c.length < (encClaims c).length := by
  induction c with
  | nil => simp [encClaims]
  | cons e es ih =>
    obtain ⟨k, v⟩ := e
    simp [encClaims]; omega

theorem decode_encode (t : Token) : decode (encode t) = some t := by
  have h := decClaims_encClaims t.Claims (encKey t.signedWith)
    (encode t).length (by
      have := encClaims_length t.Claims
      simp [encode, String.length]; omega)
  have hk := decKey_encKey t.signedWith []
  simp only [List.append_nil] at hk
  simp only [decode, encode] at *
  simp only [decMethod_encMethod]
  rw [h]
  simp [hk]

end Tagged

/-- The instance of `JwtLib` given by the `Tagged` serialisation; its claims
validation accepts exactly the claims without `exp`, `iat` and `nbf`. -/
def taggedLib : JwtLib where
  encode := Tagged.encode
  decode := Tagged.decode
  claimsValid := fun c =>
    (c.lookup "exp").isNone && (c.lookup "iat").isNone && (c.lookup "nbf").isNone
  decode_encode := Tagged.decode_encode
  claimsValid_untimed := by
    intro c h1 h2 h3
    simp [h1, h2, h3]

/-! ## Airport search -/

/-- The struct `jsonAirport` (line 74). -/
structure jsonAirport where
  AirportName : String
  deriving DecidableEq, Repr

/-- The struct `jsonAirportSearchResp` (line 175). -/
structure jsonAirportSearchResp where
  Data : List jsonAirport
  Context : jsonContext
  deriving DecidableEq, Repr

/-- The rows of a N1QL query result: each row as `rows.Row` decodes it (or the
error of decoding it), and the value of `rows.Err()` after the iteration. -/
structure QueryResult (ρ : Type) where
  rows : List (Except GoError ρ)
  err : Option GoError

/-- The method `globalCluster.Query`: from the query string to its result, or
an error. -/
abbrev Cluster (ρ : Type) := String → Except GoError (QueryResult ρ)

/-- The query string `AirportSearch` builds from the search key (lines
185-192); `ToUpper` is `strings.ToUpper`. -/
def AirportSearch.queryStr (ToUpper : String → String) (searchKey : String) : String :=
  if len searchKey = 3 then
    "SELECT airportname FROM `travel-sample` WHERE faa='" ++ ToUpper searchKey ++ "'"
  else if len searchKey = 4 ∧ searchKey = ToUpper searchKey then
    "SELECT airportname FROM `travel-sample` WHERE icao ='" ++ searchKey ++ "'"
  else
    "SELECT airportname FROM `travel-sample` WHERE airportname like '" ++ searchKey ++ "%'"

/-- The row loop of `AirportSearch` (lines 202-212): the rows collected, and
the error that stopped the loop, if one did. -/
def AirportSearch.collect : List (Except GoError jsonAirport) → List jsonAirport →
    List jsonAirport × Option GoError
  | [], data => (data, none)
  | .error err :: _, data => (data, some err)
  | .ok airport :: rest, data => AirportSearch.collect rest (data ++ [airport])

/-- The handler `AirportSearch` (line 180).  The result is the writer and the final value
of the local `respData`. -/
def AirportSearch (ToUpper : String → String) (globalCluster : Cluster jsonAirport)
    (w : ResponseWriter jsonAirportSearchResp) (req : Request Unit) :
    ResponseWriter jsonAirportSearchResp × jsonAirportSearchResp :=
  let respData : jsonAirportSearchResp := { Data := [], Context := [] }
  let searchKey := req.FormValue "search"
  let queryStr := AirportSearch.queryStr ToUpper searchKey
  let respData := { respData with Context := respData.Context.Add queryStr }
  match globalCluster queryStr with
  | .error err => (writeJsonFailure w 500 err, respData)
  | .ok rows =>
    let respData := { respData with Data := [] }
    match AirportSearch.collect rows.rows respData.Data with
    | (data, some err) => (writeJsonFailure w 500 err, { respData with Data := data })
    | (data, none) =>
      let respData := { respData with Data := data }
      match rows.err with
      | some err => (writeJsonFailure w 500 err, respData)
      | none => (encodeRespOrFail w respData, respData)

/-! ## The document store

A collection maps a key to a document and its version token (CAS).  `Get`,
`LookupIn`, `Insert` and `Replace` answer as the store defines them: a missing
key, an existing key, a stale version token.  `Upsert` has no such answer of
its own, so the failure the booking loop provides for is given to it as an
argument.  Transport failures of the other operations (a time-out, an
unreachable cluster) are outside the model; the handlers pass any error they
do not name to the client as a 500 failure. -/

/-- A version token. -/
abbrev Cas := Nat

/-- A collection of documents of type `δ`. -/
abbrev Collection (δ : Type) := String → Option (δ × Cas)

/-- The collection with `key` bound to `doc` under a new version token. -/
def Collection.store {δ : Type} (c : Collection δ) (key : String) (doc : δ) : Collection δ :=
  fun k =>
    if k = key then
      match c key with
      | none => some (doc, 1)
      | some (_, cas) => some (doc, cas + 1)
    else c k

/-- The result of a `Get`: the stored document and its version token. -/
structure GetResult (δ : Type) where
  doc : δ
  Cas : Cas

/-- The method `GetResult.Content(&v)`: the stored document decoded into the
struct the handler passes; documents are stored under their struct type, so
the decoding succeeds. -/
def GetResult.Content {δ : Type} (res : GetResult δ) : Except GoError δ := .ok res.doc

/-- The method `Collection.Get(key, nil)`. -/
def Collection.Get {δ : Type} (c : Collection δ) (key : String) : Except GoError (GetResult δ) :=
  match c key with
  | none => .error .ErrDocumentNotFound
  | some (doc, cas) => .ok { doc := doc, Cas := cas }

/-- The result of a `LookupIn` with one `GetSpec`: the field it selects. -/
structure LookupInResult (γ : Type) where
  field : γ

/-- The method `LookupInResult.ContentAt(0, &v)`. -/
def LookupInResult.ContentAt {γ : Type} (res : LookupInResult γ) : Except GoError γ :=
  .ok res.field

/-- The method `Collection.LookupIn(key, [GetSpec(path)], nil)`; `path` selects
the field of the document. -/
def Collection.LookupIn {δ γ : Type} (c : Collection δ) (key : String) (path : δ → γ) :
    Except GoError (LookupInResult γ) :=
  match c key with
  | none => .error .ErrDocumentNotFound
  | some (doc, _) => .ok { field := path doc }

/-- The method `Collection.Insert(key, doc, nil)`: the error, if any, and the
collection afterwards. -/
def Collection.Insert {δ : Type} (c : Collection δ) (key : String) (doc : δ) :
    Option GoError × Collection δ :=
  match c key with
  | some _ => (some .ErrDocumentExists, c)
  | none => (none, c.store key doc)

/-- The method `Collection.Replace(key, doc, &ReplaceOptions(Cas: cas))`: the
error, if any, and the collection afterwards.  The token presented is one a
`Get` returned, never the zero value gocb reads as a request for no check. -/
def Collection.Replace {δ : Type} (c : Collection δ) (key : String) (doc : δ) (cas : Cas) :
    Option GoError × Collection δ :=
  match c key with
  | none => (some .ErrDocumentNotFound, c)
  | some (_, current) =>
    if current = cas then (none, c.store key doc) else (some .ErrCasMismatch, c)

/-- The method `Collection.Upsert(key, doc, nil)`; `fault` is the error of a
write the store does not perform. -/
def Collection.Upsert {δ : Type} (c : Collection δ) (key : String) (doc : δ)
    (fault : Option GoError) : Option GoError × Collection δ :=
  match fault with
  | some err => (some err, c)
  | none => (none, c.store key doc)

/-! ## Accounts -/

/-- The struct `jsonUser` (line 57). -/
structure jsonUser where
  Name : String
  Password : String
  Flights : List String
  deriving DecidableEq, Repr

/-- The struct `jsonUserLoginReq` (line 335); `jsonUserSignupReq` (line 390)
has the same fields. -/
structure jsonUserLoginReq where
  User : String
  Password : String
  deriving DecidableEq, Repr

/-- The anonymous struct `Data` of the login and signup responses. -/
structure TokenData where
  Token : String
  deriving DecidableEq, Repr

/-- The struct `jsonUserLoginResp` (line 340); `jsonUserSignupResp` (line 395)
has the same fields. -/
structure jsonUserLoginResp where
  Data : TokenData
  Context : jsonContext
  deriving DecidableEq, Repr

/-- The handler `UserLogin` (line 347): the writer afterwards. -/
def UserLogin (lib : JwtLib) (userCollection : Collection jsonUser)
    (w : ResponseWriter jsonUserLoginResp) (req : Request jsonUserLoginReq) :
    ResponseWriter jsonUserLoginResp :=
  let respData : jsonUserLoginResp := { Data := { Token := "" }, Context := [] }
  match decodeReqOrFail w req with
  | (w, none) => w
  | (w, some reqData) =>
    let userKey := reqData.User
    match userCollection.LookupIn userKey (fun doc => doc.Password) with
    | .error err =>
      if err = .ErrDocumentNotFound then writeJsonFailure w 401 .ErrUserNotFound
      else writeJsonFailure w 500 err
    | .ok passRes =>
      match passRes.ContentAt with
      | .error err => writeJsonFailure w 500 err
      | .ok password =>
        if password ≠ reqData.Password then writeJsonFailure w 401 .ErrBadPassword
        else
          match createJwtToken lib reqData.User with
          | .error err => writeJsonFailure w 500 err
          | .ok token => encodeRespOrFail w { respData with Data := { Token := token } }

/-- The handler `UserSignup` (line 402): the writer and the user collection afterwards. -/
def UserSignup (lib : JwtLib) (userCollection : Collection jsonUser)
    (w : ResponseWriter jsonUserLoginResp) (req : Request jsonUserLoginReq) :
    ResponseWriter jsonUserLoginResp × Collection jsonUser :=
  let respData : jsonUserLoginResp := { Data := { Token := "" }, Context := [] }
  match decodeReqOrFail w req with
  | (w, none) => (w, userCollection)
  | (w, some reqData) =>
    let userKey := reqData.User
    let user : jsonUser := { Name := reqData.User, Password := reqData.Password, Flights := [] }
    match userCollection.Insert userKey user with
    | (some err, userCollection) =>
      if err = .ErrDocumentExists then (writeJsonFailure w 409 .ErrUserExists, userCollection)
      else (writeJsonFailure w 500 err, userCollection)
    | (none, userCollection) =>
      match createJwtToken lib user.Name with
      | .error err => (writeJsonFailure w 500 err, userCollection)
      | .ok token =>
        (encodeRespOrFail w { respData with Data := { Token := token } }, userCollection)

/-! ## Booking -/

/-- A Go `float64`, by its bit pattern; the handlers only copy prices. -/
structure Float64 where
  bits : Nat
  deriving DecidableEq, Repr

/-- The struct `jsonBookedFlight` (line 47). -/
structure jsonBookedFlight where
  Name : String
  Flight : String
  Price : Float64
  Date : String
  SourceAirport : String
  DestinationAirport : String
  BookedOn : String
  deriving DecidableEq, Repr

/-- The struct `jsonUserBookFlightReq` (line 489). -/
structure jsonUserBookFlightReq where
  Flights : List jsonBookedFlight
  deriving DecidableEq, Repr

/-- The anonymous struct `Data` of the booking response. -/
structure AddedData where
  Added : List jsonBookedFlight
  deriving DecidableEq, Repr

/-- The struct `jsonUserBookFlightResp` (line 493). -/
structure jsonUserBookFlightResp where
  Data : AddedData
  Context : jsonContext
  deriving DecidableEq, Repr

/-- The calendar date of a `time.Time` in its location. -/
structure GoTime where
  Year : Nat
  Month : Nat
  Day : Nat
  deriving DecidableEq, Repr

/-- A number in decimal, padded with zeros on the left to `width` digits. -/
def zeroPad (width n : Nat) : List Char :=
  let ds := Nat.toDigits 10 n
  List.replicate (width - ds.length) '0' ++ ds

/-- The call `t.Format("01/02/2006")`: month, day and year as MM/DD/YYYY. -/
def GoTime.Format (t : GoTime) : String :=
  String.mk (zeroPad 2 t.Month ++ '/' :: zeroPad 2 t.Day ++ '/' :: zeroPad 4 t.Year)

/-- A `uuid.UUID`, by its canonical text. -/
structure UUID where
  text : String
  deriving DecidableEq, Repr

/-- The method `UUID.String`. -/
def UUID.String (u : UUID) : String := u.text

/-- The value `uuid.Nil`. -/
def UUID.Nil : UUID := ⟨"00000000-0000-0000-0000-000000000000"⟩

/-- What the booking handler takes from outside one run: at the `i`-th loop
iteration the reading of the clock, the outcome of the random source behind
`uuid.NewRandom`, and the error, if any, with which the store refuses the
flight-record write; and the writes of other clients to the user collection
between this run's `Get` and its `Replace`. -/
structure BookEnv where
  Now : Nat → GoTime
  random : Nat → Except GoError UUID
  upsertFault : Nat → Option GoError
  interfere : Collection jsonUser → Collection jsonUser

/-- The call `uuid.NewRandom()` at iteration `i`: the identifier and a nil
error, or `uuid.Nil` and the error. -/
def NewRandom (env : BookEnv) (i : Nat) : UUID × Option GoError :=
  match env.random i with
  | .ok u => (u, none)
  | .error err => (UUID.Nil, some err)

/-- The two collections of the `userData` scope. -/
structure Store where
  userCollection : Collection jsonUser
  flightCollection : Collection jsonBookedFlight

/-- The local variables of `UserBookFlight` that are live after line 525. -/
structure Locals where
  w : ResponseWriter jsonUserBookFlightResp
  respData : jsonUserBookFlightResp
  userKey : String
  user : jsonUser
  cas : Cas

/-- Lines 501-525 of `UserBookFlight`: authenticate, decode the body, `Get`
the traveler document.  The result is the writer of a run that has returned,
or the local variables and the requested flights of one that goes on. -/
def UserBookFlight.load (lib : JwtLib) (userCollection : Collection jsonUser)
    (w : ResponseWriter jsonUserBookFlightResp) (req : Request jsonUserBookFlightReq) :
    Except GoPanic (ResponseWriter jsonUserBookFlightResp ⊕ (Locals × List jsonBookedFlight)) :=
  let respData : jsonUserBookFlightResp := { Data := { Added := [] }, Context := [] }
  match decodeAuthUserOrFail lib w req { Name := "" } with
  | .error p => .error p
  | .ok (w, _, false) => .ok (.inl w)
  | .ok (w, authUser, true) =>
    match decodeReqOrFail w req with
    | (w, none) => .ok (.inl w)
    | (w, some reqData) =>
      let userKey := authUser.Name
      match userCollection.Get userKey with
      | .error err => .ok (.inl (writeJsonFailure w 500 err))
      | .ok res =>
        let cas := res.Cas
        match res.Content with
        | .error err => .ok (.inl (writeJsonFailure w 500 err))
        | .ok user =>
          .ok (.inr ({ w := w, respData := respData, userKey := userKey, user := user,
                       cas := cas }, reqData.Flights))

/-- One iteration of the loop of `UserBookFlight` (lines 528-538), the `i`-th,
on the local variables and the flight collection.  Neither error check in
the loop body returns. -/
def UserBookFlight.iteration (env : BookEnv) (i : Nat) (flight : jsonBookedFlight)
    (st : Locals × Collection jsonBookedFlight) : Locals × Collection jsonBookedFlight :=
  let flight := { flight with BookedOn := (env.Now i).Format }
  let respData := { st.1.respData with
    Data := { Added := st.1.respData.Data.Added ++ [flight] } }
  let (flightID, err) := NewRandom env i
  let w := match err with
    | some e => writeJsonFailure st.1.w 500 e
    | none => st.1.w
  let user := { st.1.user with Flights := st.1.user.Flights ++ [flightID.String] }
  let (err, flightCollection) := st.2.Upsert flightID.String flight (env.upsertFault i)
  let w := match err with
    | some e => writeJsonFailure w 500 e
    | none => w
  ({ st.1 with w := w, respData := respData, user := user }, flightCollection)

/-- The loop of `UserBookFlight` (line 527) over the requested flights, from
iteration `i` on. -/
def UserBookFlight.loop (env : BookEnv) :
    Nat → List jsonBookedFlight → Locals × Collection jsonBookedFlight →
    Locals × Collection jsonBookedFlight
  | _, [], st => st
  | i, flight :: rest, st =>
    UserBookFlight.loop env (i + 1) rest (UserBookFlight.iteration env i flight st)

/-- Lines 541-550 of `UserBookFlight`: one version-checked `Replace`, then the
failure or the response. -/
def UserBookFlight.commit (userCollection : Collection jsonUser) (l : Locals) :
    ResponseWriter jsonUserBookFlightResp × Collection jsonUser :=
  match userCollection.Replace l.userKey l.user l.cas with
  | (some err, userCollection) => (writeJsonFailure l.w 500 err, userCollection)
  | (none, userCollection) => (encodeRespOrFail l.w l.respData, userCollection)

/-- The handler `UserBookFlight` (line 500): the writer and the store afterwards. -/
def UserBookFlight (lib : JwtLib) (env : BookEnv) (store : Store)
    (w : ResponseWriter jsonUserBookFlightResp) (req : Request jsonUserBookFlightReq) :
    Except GoPanic (ResponseWriter jsonUserBookFlightResp × Store) :=
  match UserBookFlight.load lib store.userCollection w req with
  | .error p => .error p
  | .ok (.inl w) => .ok (w, store)
  | .ok (.inr (l, flights)) =>
    let (l, flightCollection) := UserBookFlight.loop env 0 flights (l, store.flightCollection)
    let (w, userCollection) := UserBookFlight.commit (env.interfere store.userCollection) l
    .ok (w, { userCollection := userCollection, flightCollection := flightCollection })

/-! ### Runs that interleave

A run of `UserBookFlight` touches the store in single operations: the `Get`,
one `Upsert` per requested flight, the `Replace`.  Two runs against one store
interleave at these operations, in the order a schedule names. -/

/-- The state of one run of `UserBookFlight` between two of its store
operations. -/
inductive Run where
  | idle (w : ResponseWriter jsonUserBookFlightResp) (req : Request jsonUserBookFlightReq)
  | looping (l : Locals) (pending : List jsonBookedFlight) (i : Nat)
  | done (w : ResponseWriter jsonUserBookFlightResp)
  | panicked (p : GoPanic)

/-- The store operations of a run that a trace records: `Get`, when it
returned the traveler document; `Upsert`; `Replace`, when it was issued. -/
inductive StoreOp where
  | Get
  | Upsert
  | Replace
  deriving DecidableEq, Repr

/-- The next store operation of a run, with what leads to it and follows it
in the handler: lines 501-525 for an idle run, one loop iteration while
flights are pending, lines 541-550 after the last.  A run that has returned
or panicked does nothing more. -/
def Run.step (lib : JwtLib) (env : BookEnv) (r : Run) (store : Store) :
    Run × Store × Option StoreOp :=
  match r with
  | .idle w req =>
    match UserBookFlight.load lib store.userCollection w req with
    | .error p => (.panicked p, store, none)
    | .ok (.inl w) => (.done w, store, none)
    | .ok (.inr (l, flights)) => (.looping l flights 0, store, some .Get)
  | .looping l (flight :: rest) i =>
    let (l, flightCollection) := UserBookFlight.iteration env i flight (l, store.flightCollection)
    (.looping l rest (i + 1), { store with flightCollection := flightCollection }, some .Upsert)
  | .looping l [] _ =>
    let (w, userCollection) := UserBookFlight.commit store.userCollection l
    (.done w, { store with userCollection := userCollection }, some .Replace)
  | .done w => (.done w, store, none)
  | .panicked p => (.panicked p, store, none)

/-- The two runs of a race. -/
inductive Who where
  | A
  | B
  deriving DecidableEq, Repr

/-- Two runs against one store. -/
structure Race where
  A : Run
  B : Run
  store : Store

/-- One step of the race: the named run performs its next store operation.
The result is the race afterwards and the operation, if the trace records
one. -/
def Race.step (lib : JwtLib) (envA envB : BookEnv) (c : Race) (who : Who) :
    Race × Option (Who × StoreOp) :=
  match who with
  | .A =>
    let (r, store, op) := c.A.step lib envA c.store
    ({ c with A := r, store := store }, op.map (fun o => (Who.A, o)))
  | .B =>
    let (r, store, op) := c.B.step lib envB c.store
    ({ c with B := r, store := store }, op.map (fun o => (Who.B, o)))

/-- The race after a schedule. -/
def Race.run (lib : JwtLib) (envA envB : BookEnv) : Race → List Who → Race
  | c, [] => c
  | c, who :: rest => Race.run lib envA envB (Race.step lib envA envB c who).1 rest

/-- The trace of a schedule: the store operations it performs, oldest first. -/
def Race.trace (lib : JwtLib) (envA envB : BookEnv) : Race → List Who → List (Who × StoreOp)
  | _, [] => []
  | c, who :: rest =>
    (Race.step lib envA envB c who).2.toList ++
      Race.trace lib envA envB (Race.step lib envA envB c who).1 rest

/-- The operations of a trace on the traveler document: the `Get`s and the
`Replace`s, in order. -/
def userOps (trace : List (Who × StoreOp)) : List (Who × StoreOp) :=
  trace.filter (fun e => e.2 ≠ StoreOp.Upsert)

/-- The identifiers the loop appends in the `n` iterations from the `i`-th on. -/
def newIDs (env : BookEnv) : Nat → Nat → List String
  | _, 0 => []
  | i, n + 1 => (NewRandom env i).1.String :: newIDs env (i + 1) n

/-- The flights the loop adds to the response in iterations `i`, `i + 1`, ...:
the requested flights, each stamped with the date read in its iteration. -/
def stamped (env : BookEnv) : Nat → List jsonBookedFlight → List jsonBookedFlight
  | _, [] => []
  | i, flight :: rest => { flight with BookedOn := (env.Now i).Format } :: stamped env (i + 1) rest

/-! ### The three query forms -/

/-- The exact match on the FAA code. -/
def faaQuery (code : String) : String :=
  "SELECT airportname FROM `travel-sample` WHERE faa='" ++ code ++ "'"

/-- The exact match on the ICAO code. -/
def icaoQuery (code : String) : String :=
  "SELECT airportname FROM `travel-sample` WHERE icao ='" ++ code ++ "'"

/-- The match on the beginning of the airport name. -/
def nameQuery (start : String) : String :=
  "SELECT airportname FROM `travel-sample` WHERE airportname like '" ++ start ++ "%'"

/-! ### Concrete requests -/

/-- A request with the given `Authorization` and `Authentication` headers,
form value `search` and body. -/
def mkRequest {β : Type} (authorization authentication search : String)
    (body : Except GoError β) : Request β where
  Header := fun h =>
    if h = "Authorization" then authorization
    else if h = "Authentication" then authentication
    else ""
  FormValue := fun k => if k = "search" then search else ""
  Body := body

/-- Upper-casing of the ASCII letters, one instance of `strings.ToUpper` on
ASCII strings. -/
def asciiUpper (s : String) : String := String.mk (s.data.map Char.toUpper)

/-! ### Concrete bookings -/

/-- A user collection holding the one account `alice` with password `secret`
and the flight identifiers `f1`, `f2`, under version token 7. -/
def aliceOnly : Collection jsonUser :=
  fun k => if k = "alice" then some (⟨"alice", "secret", ["f1", "f2"]⟩, 7) else none

/-- The store with the account `alice` and no flight record. -/
def aliceStore : Store := { userCollection := aliceOnly, flightCollection := fun _ => none }

/-- The token `createJwtToken` issues to `alice` in the `Tagged` serialisation. -/
def aliceToken : String :=
  "a&+u+s+e+r.s+a+l+i+c+e.!=+U+N+S+E+C+U+R+E+_+S+E+C+R+E+T+_+T+O+K+E+N."

/-- A booking request of `alice` for the given flights. -/
def bookRequest (flights : List jsonBookedFlight) : Request jsonUserBookFlightReq :=
  mkRequest ("Bearer " ++ aliceToken) "" "" (.ok { Flights := flights })

/-- A requested flight from SFO to LAX. -/
def flightLAX : jsonBookedFlight :=
  { Name := "American Airlines", Flight := "AA100", Price := ⟨0⟩, Date := "03/10/2024",
    SourceAirport := "SFO", DestinationAirport := "LAX", BookedOn := "" }

/-- A requested flight from LAX to SEA. -/
def flightSEA : jsonBookedFlight :=
  { Name := "Alaska Airlines", Flight := "AS200", Price := ⟨1⟩, Date := "03/12/2024",
    SourceAirport := "LAX", DestinationAirport := "SEA", BookedOn := "pending" }

/-- An environment for one run: the date is 9 March 2024, the identifiers are
`id-0`, `id-1`, `id-2`, every flight-record write succeeds and no other client
writes. -/
def calmEnv : BookEnv where
  Now := fun _ => { Year := 2024, Month := 3, Day := 9 }
  random := fun i =>
    if i = 0 then .ok ⟨"id-0"⟩ else if i = 1 then .ok ⟨"id-1"⟩ else .ok ⟨"id-2"⟩
  upsertFault := fun _ => none
  interfere := fun c => c

/-- The environment `calmEnv` with every flight-record write refused. -/
def faultyEnv : BookEnv := { calmEnv with upsertFault := fun _ => some (.other "timeout") }

/-- An environment for a second run: as `calmEnv`, with the identifiers `id-7`,
`id-8`, `id-9`. -/
def otherEnv : BookEnv :=
  { calmEnv with random := fun i =>
      if i = 0 then .ok ⟨"id-7"⟩ else if i = 1 then .ok ⟨"id-8"⟩ else .ok ⟨"id-9"⟩ }

/-- The environment `calmEnv` with a random source that fails at every call. -/
def dryEnv : BookEnv := { calmEnv with random := fun _ => .error (.other "no entropy") }

/-- The environment `calmEnv` with a random source that returns the identifier
`id-0` at every call. -/
def stuckEnv : BookEnv := { calmEnv with random := fun _ => .ok ⟨"id-0"⟩ }

/-- The writer of a run that has returned. -/
def Run.response : Run → Option (ResponseWriter jsonUserBookFlightResp)
  | .done w => some w
  | _ => none

/-- A run on its own: `n` of its steps in a row. -/
def Run.steps (lib : JwtLib) (env : BookEnv) : Nat → Run × Store → Run × Store
  | 0, c => c
  | n + 1, c => Run.steps lib env n ((c.1.step lib env c.2).1, (c.1.step lib env c.2).2.1)

/-- What holds of the local variables of a run inside its loop, with
`pending` flights left from iteration `i` on: the key and version token are
those of the `Get`; only failures have been written; the account fields are
those read; and the flight-ID list and `added` list, continued by the
remaining iterations, are the old list followed by `ids`, and `added`. -/
def LoopInv (env : BookEnv) (w0 : ResponseWriter jsonUserBookFlightResp) (name : String)
    (cas : Cas) (user : jsonUser) (ids : List String) (added : List jsonBookedFlight)
    (l : Locals) (pending : List jsonBookedFlight) (i : Nat) : Prop :=
  l.userKey = name ∧ l.cas = cas ∧
  (∃ fs : List jsonFailure, l.w.body = w0.body ++ fs.map .failure) ∧
  l.user.Name = user.Name ∧ l.user.Password = user.Password ∧
  l.user.Flights ++ newIDs env i pending.length = user.Flights ++ ids ∧
  l.respData.Context = [] ∧ l.respData.Data.Added ++ stamped env i pending = added

end TryCb

/-! # Theorems -/

namespace TryCb

/-! ## Airport search -/

theorem faaQuery_ne_icaoQuery (x y : String) : faaQuery x ≠ icaoQuery y := by
  intro h
  have h2 := congrArg String.data h
  simp [faaQuery, icaoQuery] at h2

theorem faaQuery_ne_nameQuery (x y : String) : faaQuery x ≠ nameQuery y := by
  intro h
  have h2 := congrArg String.data h
  simp [faaQuery, nameQuery] at h2

theorem icaoQuery_ne_nameQuery (x y : String) : icaoQuery x ≠ nameQuery y := by
  intro h
  have h2 := congrArg String.data h
  simp [icaoQuery, nameQuery] at h2

theorem AirportSearch_context (ToUpper : String → String) (globalCluster : Cluster jsonAirport)
    (w : ResponseWriter jsonAirportSearchResp) (req : Request Unit) :
    (AirportSearch ToUpper globalCluster w req).2.Context =
      [AirportSearch.queryStr ToUpper (req.FormValue "search")] := by
  unfold AirportSearch
  simp only [jsonContext.Add, List.nil_append]
  cases globalCluster (AirportSearch.queryStr ToUpper (req.FormValue "search")) with
  | error e => rfl
  | ok rows =>
    simp only
    rcases h : AirportSearch.collect rows.rows [] with ⟨data, _ | err⟩
    · simp only
      cases rows.err <;> rfl
    · rfl

theorem AirportSearch_cluster (ToUpper : String → String) (c1 c2 : Cluster jsonAirport)
    (w : ResponseWriter jsonAirportSearchResp) (req : Request Unit)
    (h : c1 (AirportSearch.queryStr ToUpper (req.FormValue "search")) =
      c2 (AirportSearch.queryStr ToUpper (req.FormValue "search"))) :
    AirportSearch ToUpper c1 w req = AirportSearch ToUpper c2 w req := by
  unfold AirportSearch
  simp only [h]

/-- C10: for every search key `s`, `AirportSearch` records exactly one query
in the response context: the FAA exact match on the upper-cased key when
`len s = 3`; otherwise the ICAO exact match on `s` when `len s = 4` and `s` is
its own upper-casing; otherwise the match on names beginning with `s`.  The
three forms are pairwise different strings, and the cluster is asked that
query and no other. -/
theorem AirportSearch_query_forms (ToUpper : String → String)
    (globalCluster : Cluster jsonAirport) (w : ResponseWriter jsonAirportSearchResp)
    (req : Request Unit) :
    (len (req.FormValue "search") = 3 →
      (AirportSearch ToUpper globalCluster w req).2.Context =
        [faaQuery (ToUpper (req.FormValue "search"))]) ∧
    (len (req.FormValue "search") ≠ 3 → len (req.FormValue "search") = 4 →
      req.FormValue "search" = ToUpper (req.FormValue "search") →
      (AirportSearch ToUpper globalCluster w req).2.Context =
        [icaoQuery (req.FormValue "search")]) ∧
    (len (req.FormValue "search") ≠ 3 →
      ¬ (len (req.FormValue "search") = 4 ∧
          req.FormValue "search" = ToUpper (req.FormValue "search")) →
      (AirportSearch ToUpper globalCluster w req).2.Context =
        [nameQuery (req.FormValue "search")]) ∧
    (∀ x y : String, faaQuery x ≠ icaoQuery y ∧ faaQuery x ≠ nameQuery y ∧
      icaoQuery x ≠ nameQuery y) ∧
    (∀ other : Cluster jsonAirport,
      other (AirportSearch.queryStr ToUpper (req.FormValue "search")) =
        globalCluster (AirportSearch.queryStr ToUpper (req.FormValue "search")) →
      AirportSearch ToUpper other w req = AirportSearch ToUpper globalCluster w req) := by
  refine ⟨?_, ?_, ?_, ?_, ?_⟩
  · intro h3
    rw [AirportSearch_context]
    simp [AirportSearch.queryStr, h3, faaQuery]
  · intro h3 h4 hup
    rw [AirportSearch_context]
    rw [AirportSearch.queryStr, if_neg h3, if_pos ⟨h4, hup⟩, icaoQuery]
  · intro h3 h4
    rw [AirportSearch_context]
    rw [AirportSearch.queryStr, if_neg h3, if_neg h4, nameQuery]
  · intro x y
    exact ⟨faaQuery_ne_icaoQuery x y, faaQuery_ne_nameQuery x y, icaoQuery_ne_nameQuery x y⟩
  · intro other h
    exact AirportSearch_cluster ToUpper other globalCluster w req h

/-- C10 at the key `sfo` (FAA form), on a cluster that answers every query
with no rows. -/
theorem AirportSearch_query_forms_witness :
    len "sfo" = 3 ∧
    (AirportSearch asciiUpper (fun _ => .ok ⟨[], none⟩) ResponseWriter.fresh
        (mkRequest "" "" "sfo" (.ok ()))).2.Context =
      ["SELECT airportname FROM `travel-sample` WHERE faa='SFO'"] :=
  ⟨by decide,
    (AirportSearch_query_forms asciiUpper (fun _ => .ok ⟨[], none⟩) ResponseWriter.fresh
      (mkRequest "" "" "sfo" (.ok ()))).1 (by decide)⟩

/-! ## The response writer -/

theorem WriteHeader_body {α : Type} (w : ResponseWriter α) (code : Nat) :
    (w.WriteHeader code).body = w.body := by
  unfold ResponseWriter.WriteHeader
  cases w.status <;> rfl

theorem Write_body {α : Type} (w : ResponseWriter α) (b : Written α) :
    (w.Write b).body = w.body ++ [b] := by
  simp [ResponseWriter.Write, WriteHeader_body]

theorem writeJsonFailure_body {α : Type} (w : ResponseWriter α) (code : Nat) (err : GoError) :
    (writeJsonFailure w code err).body = w.body ++ [.failure ⟨err.Error⟩] := by
  simp [writeJsonFailure, Write_body, WriteHeader_body]

theorem writeJsonFailure_status {α : Type} (w : ResponseWriter α) (code : Nat) (err : GoError)
    (h : w.status = none) : (writeJsonFailure w code err).status = some code := by
  simp [writeJsonFailure, ResponseWriter.Write, ResponseWriter.WriteHeader, h]

theorem encodeRespOrFail_body {α : Type} (w : ResponseWriter α) (data : α) :
    (encodeRespOrFail w data).body = w.body ++ [.data data] := by
  simp [encodeRespOrFail, jsonEncode, Write_body]

theorem encodeRespOrFail_status {α : Type} (w : ResponseWriter α) (data : α)
    (h : w.status = none) : (encodeRespOrFail w data).status = some 200 := by
  simp [encodeRespOrFail, jsonEncode, ResponseWriter.Write, ResponseWriter.WriteHeader, h]

/-! ## Accounts -/

/-- C7: `UserSignup` with a user name whose document exists answers 409 with
the error `ErrUserExists`; the failure object is its only write to the body,
so no token is in the response; and the user collection, the existing
document with it, is unchanged. -/
theorem UserSignup_existing (lib : JwtLib) (userCollection : Collection jsonUser)
    (w : ResponseWriter jsonUserLoginResp) (req : Request jsonUserLoginReq)
    (reqData : jsonUserLoginReq) (doc : jsonUser) (cas : Cas)
    (hbody : req.Body = .ok reqData)
    (hdoc : userCollection reqData.User = some (doc, cas)) :
    UserSignup lib userCollection w req =
      (writeJsonFailure w 409 GoError.ErrUserExists, userCollection) ∧
    (UserSignup lib userCollection w req).1.body =
      w.body ++ [.failure ⟨"user already exists"⟩] ∧
    (w.status = none → (UserSignup lib userCollection w req).1.status = some 409) ∧
    (UserSignup lib userCollection w req).2 reqData.User = some (doc, cas) := by
  have h : UserSignup lib userCollection w req =
      (writeJsonFailure w 409 GoError.ErrUserExists, userCollection) := by
    simp [UserSignup, decodeReqOrFail, hbody, Collection.Insert, hdoc]
  refine ⟨h, ?_, ?_, ?_⟩
  · rw [h]; exact writeJsonFailure_body w 409 _
  · intro hs; rw [h]; exact writeJsonFailure_status w 409 _ hs
  · rw [h]; exact hdoc

/-- C7 at a signup for the existing account `alice`. -/
theorem UserSignup_existing_witness :
    (UserSignup taggedLib aliceOnly ResponseWriter.fresh
        (mkRequest "" "" "" (.ok ⟨"alice", "other"⟩))).1 =
      ⟨some 409, [.failure ⟨"user already exists"⟩]⟩ ∧
    (UserSignup taggedLib aliceOnly ResponseWriter.fresh
        (mkRequest "" "" "" (.ok ⟨"alice", "other"⟩))).2 "alice" =
      some (⟨"alice", "secret", ["f1", "f2"]⟩, 7) := by
  have h := UserSignup_existing taggedLib aliceOnly ResponseWriter.fresh
    (mkRequest "" "" "" (.ok ⟨"alice", "other"⟩)) ⟨"alice", "other"⟩
    ⟨"alice", "secret", ["f1", "f2"]⟩ 7 rfl (by decide)
  exact ⟨by rw [h.1]; decide, h.2.2.2⟩

/-- C8: `UserLogin` on a decoded request.  When the account exists and the
submitted password differs from the stored one, the answer is 401 with
`ErrBadPassword` and nothing else is written; when the account does not
exist, the answer is 401 with `ErrUserNotFound` and nothing else is written;
and whenever the handler writes a response value (the token), the account
exists, the submitted password equals the stored one, and the token is the
one `createJwtToken` makes for the user. -/
theorem UserLogin_outcomes (lib : JwtLib) (userCollection : Collection jsonUser)
    (w : ResponseWriter jsonUserLoginResp) (req : Request jsonUserLoginReq) :
    (∀ (reqData : jsonUserLoginReq) (doc : jsonUser) (cas : Cas), req.Body = .ok reqData →
      userCollection reqData.User = some (doc, cas) → doc.Password ≠ reqData.Password →
      UserLogin lib userCollection w req = writeJsonFailure w 401 GoError.ErrBadPassword ∧
      (UserLogin lib userCollection w req).body =
        w.body ++ [.failure ⟨"password does not match"⟩]) ∧
    (∀ reqData : jsonUserLoginReq, req.Body = .ok reqData →
      userCollection reqData.User = none →
      UserLogin lib userCollection w req = writeJsonFailure w 401 GoError.ErrUserNotFound ∧
      (UserLogin lib userCollection w req).body =
        w.body ++ [.failure ⟨"user does not exist"⟩]) ∧
    (∀ d : jsonUserLoginResp,
      (UserLogin lib userCollection w req).body = w.body ++ [.data d] →
      ∃ (reqData : jsonUserLoginReq) (doc : jsonUser) (cas : Cas), req.Body = .ok reqData ∧
        userCollection reqData.User = some (doc, cas) ∧ doc.Password = reqData.Password ∧
        createJwtToken lib reqData.User = .ok d.Data.Token) := by
  refine ⟨?_, ?_, ?_⟩
  · intro reqData doc cas hbody hdoc hne
    have h : UserLogin lib userCollection w req =
        writeJsonFailure w 401 GoError.ErrBadPassword := by
      simp [UserLogin, decodeReqOrFail, hbody, Collection.LookupIn, hdoc,
        LookupInResult.ContentAt, hne]
    exact ⟨h, by rw [h]; exact writeJsonFailure_body w 401 _⟩
  · intro reqData hbody hdoc
    have h : UserLogin lib userCollection w req =
        writeJsonFailure w 401 GoError.ErrUserNotFound := by
      simp [UserLogin, decodeReqOrFail, hbody, Collection.LookupIn, hdoc]
    exact ⟨h, by rw [h]; exact writeJsonFailure_body w 401 _⟩
  · intro d hd
    cases hbody : req.Body with
    | error err =>
      simp [UserLogin, decodeReqOrFail, hbody, writeJsonFailure_body] at hd
    | ok reqData =>
      cases hdoc : userCollection reqData.User with
      | none =>
        simp [UserLogin, decodeReqOrFail, hbody, Collection.LookupIn, hdoc,
          writeJsonFailure_body] at hd
      | some entry =>
        obtain ⟨doc, cas⟩ := entry
        by_cases hp : doc.Password = reqData.Password
        · refine ⟨reqData, doc, cas, rfl, hdoc, hp, ?_⟩
          cases htok : createJwtToken lib reqData.User with
          | error err =>
            simp [UserLogin, decodeReqOrFail, hbody, Collection.LookupIn, hdoc,
              LookupInResult.ContentAt, hp, htok, writeJsonFailure_body] at hd
          | ok token =>
            simp [UserLogin, decodeReqOrFail, hbody, Collection.LookupIn, hdoc,
              LookupInResult.ContentAt, hp, htok, encodeRespOrFail_body] at hd
            rw [← hd]
        · simp [UserLogin, decodeReqOrFail, hbody, Collection.LookupIn, hdoc,
            LookupInResult.ContentAt, hp, writeJsonFailure_body] at hd

/-- C8 at a login to `alice` with a wrong password, and at a login to the
unknown account `bob`. -/
theorem UserLogin_outcomes_witness :
    UserLogin taggedLib aliceOnly ResponseWriter.fresh
        (mkRequest "" "" "" (.ok ⟨"alice", "guess"⟩)) =
      ⟨some 401, [.failure ⟨"password does not match"⟩]⟩ ∧
    UserLogin taggedLib aliceOnly ResponseWriter.fresh
        (mkRequest "" "" "" (.ok ⟨"bob", "secret"⟩)) =
      ⟨some 401, [.failure ⟨"user does not exist"⟩]⟩ := by
  constructor
  · rw [((UserLogin_outcomes taggedLib aliceOnly ResponseWriter.fresh
      (mkRequest "" "" "" (.ok ⟨"alice", "guess"⟩))).1 ⟨"alice", "guess"⟩
      ⟨"alice", "secret", ["f1", "f2"]⟩ 7 rfl (by decide) (by decide)).1]
    decide
  · rw [((UserLogin_outcomes taggedLib aliceOnly ResponseWriter.fresh
      (mkRequest "" "" "" (.ok ⟨"bob", "secret"⟩))).2.1 ⟨"bob", "secret"⟩ rfl (by decide)).1]
    decide

/-! ## Bearer tokens -/

theorem SplitN_bearer (t : String) : SplitN ("Bearer " ++ t) ' ' 2 = ["Bearer", t] := by
  simp [SplitN, SplitNAux, List.span, List.span.loop]

theorem SplitNAux_two_ne_nil (s : List Char) : ∃ x xs, SplitNAux ' ' 2 s = x :: xs := by
  unfold SplitNAux
  rcases h : s.span (fun c => c != ' ') with ⟨a, _ | ⟨b, rest⟩⟩
  · exact ⟨s, [], by simp⟩
  · exact ⟨a, SplitNAux ' ' 1 rest, by simp⟩

theorem index_SplitN_zero (s : String) : ∃ x, index (SplitN s ' ' 2) 0 = .ok x := by
  obtain ⟨x, xs, h⟩ := SplitNAux_two_ne_nil s.data
  exact ⟨String.mk x, by simp [SplitN, h, index]⟩

theorem decodeAuthUserOrFail_bearer {α β : Type} (lib : JwtLib) (w : ResponseWriter α)
    (req : Request β) (user : AuthedUser) (tok : String)
    (h : req.Header "Authorization" = "Bearer " ++ tok) :
    decodeAuthUserOrFail lib w req user =
      match Parse lib tok keyFunc with
      | .error _ => .ok (writeJsonFailure w 400 GoError.ErrBadAuthHeader, user, false)
      | .ok token =>
        match assertString (token.Claims.lookup "user") with
        | .error p => .error p
        | .ok authUser =>
          if authUser = "" then .ok (writeJsonFailure w 400 GoError.ErrBadAuth, user, false)
          else .ok (w, { Name := authUser }, true) := by
  unfold decodeAuthUserOrFail
  simp only [h, SplitN_bearer, index, List.get?, bind, Except.bind, pure, Except.pure]
  simp
  cases Parse lib tok keyFunc with
  | error e => rfl
  | ok token =>
    simp only
    cases assertString (List.lookup "user" token.Claims) with
    | error p => rfl
    | ok authUser =>
      rfl

theorem decodeAuthUserOrFail_no_bearer {α β : Type} (lib : JwtLib) (w : ResponseWriter α)
    (req : Request β) (user : AuthedUser) (a b : String)
    (ha : index (SplitN (req.Header "Authorization") ' ' 2) 0 = .ok a) (hna : a ≠ "Bearer")
    (hb : index (SplitN (req.Header "Authentication") ' ' 2) 0 = .ok b) (hnb : b ≠ "Bearer") :
    decodeAuthUserOrFail lib w req user =
      .ok (writeJsonFailure w 400 GoError.ErrBadAuthHeader, user, false) := by
  unfold decodeAuthUserOrFail
  simp only [ha, hb, bind, Except.bind, pure, Except.pure]
  simp [hna, hnb]

theorem decodeAuthUserOrFail_empty_user {α β : Type} (lib : JwtLib) (w : ResponseWriter α)
    (req : Request β) (user : AuthedUser) (tok : String) (token : Token)
    (h : req.Header "Authorization" = "Bearer " ++ tok)
    (hp : Parse lib tok keyFunc = .ok token)
    (hu : token.Claims.lookup "user" = some (.string "")) :
    decodeAuthUserOrFail lib w req user =
      .ok (writeJsonFailure w 400 GoError.ErrBadAuth, user, false) := by
  rw [decodeAuthUserOrFail_bearer lib w req user tok h, hp]
  simp [hu, assertString]

theorem Parse_issued (lib : JwtLib) (u : String) :
    Parse lib (lib.encode ⟨.HS256, [("user", .string u)], some jwtSecret⟩) keyFunc =
      .ok ⟨.HS256, [("user", .string u)], some jwtSecret⟩ := by
  have hv := lib.claimsValid_untimed [("user", .string u)] (by simp [List.lookup])
    (by simp [List.lookup]) (by simp [List.lookup])
  simp [Parse, lib.decode_encode, keyFunc, SigningMethod.isHMAC, hv, Token.Verify]

theorem Parse_rejects (lib : JwtLib) (t : Token)
    (h : t.Method.isHMAC = false ∨ t.signedWith ≠ some jwtSecret) :
    ∃ err, Parse lib (lib.encode t) keyFunc = .error err := by
  simp only [Parse, lib.decode_encode, keyFunc]
  cases hm : t.Method.isHMAC with
  | false => exact ⟨_, rfl⟩
  | true =>
    have hs : t.signedWith ≠ some jwtSecret := by
      rcases h with h | h
      · rw [hm] at h; cases h
      · exact h
    by_cases hv : lib.claimsValid t.Claims = true
    · refine ⟨.other "signature is invalid", ?_⟩
      simp [hv, Token.Verify, hm, hs]
    · refine ⟨.other "token claims are not valid", ?_⟩
      simp [hv]

/-- C4, the code at a token whose signature does not verify: the token names
`alice`, is of method HS256 and is signed with the secret `wrong`.  The
handler answers 400 with the message of `ErrBadAuthHeader`, not that of
`ErrBadAuth`. -/
theorem decodeAuthUserOrFail_bad_signature :
    taggedLib.encode ⟨.HS256, [("user", .string "alice")], some "wrong"⟩ =
      "a&+u+s+e+r.s+a+l+i+c+e.!=+w+r+o+n+g." ∧
    decodeAuthUserOrFail (α := Unit) taggedLib ResponseWriter.fresh
        (mkRequest (β := Unit) "Bearer a&+u+s+e+r.s+a+l+i+c+e.!=+w+r+o+n+g." "" "" (.ok ()))
        ⟨""⟩ =
      .ok (⟨some 400, [.failure ⟨"bad authentication header format"⟩]⟩, ⟨""⟩, false) ∧
    GoError.ErrBadAuthHeader.Error = "bad authentication header format" ∧
    GoError.ErrBadAuth.Error = "invalid auth token" := by
  refine ⟨by rfl, by decide, rfl, rfl⟩

/-- C9, the code at three requests.  The header `Bearer` with no space makes
the index `authHeaderParts[1]` panic (the slice has length 1); a token signed
with `jwtSecret` whose claims have no `user` entry, and one whose `user` entry
is a number, make the type assertion to `string` panic. -/
theorem decodeAuthUserOrFail_panics :
    SplitN "Bearer" ' ' 2 = ["Bearer"] ∧
    decodeAuthUserOrFail (α := Unit) taggedLib ResponseWriter.fresh
        (mkRequest (β := Unit) "Bearer" "" "" (.ok ())) ⟨""⟩ =
      .error (.indexOutOfRange 1 1) ∧
    decodeAuthUserOrFail (α := Unit) taggedLib ResponseWriter.fresh
        (mkRequest (β := Unit)
          ("Bearer " ++ taggedLib.encode ⟨.HS256, [], some jwtSecret⟩) "" "" (.ok ())) ⟨""⟩ =
      .error (.typeAssertion "string") ∧
    decodeAuthUserOrFail (α := Unit) taggedLib ResponseWriter.fresh
        (mkRequest (β := Unit)
          ("Bearer " ++ taggedLib.encode ⟨.HS256, [("user", .number "7")], some jwtSecret⟩)
          "" "" (.ok ())) ⟨""⟩ =
      .error (.typeAssertion "string") := by
  refine ⟨by decide, by decide, by decide, by decide⟩

/-- C5 as stated fails at the empty user name: the token `createJwtToken`
issues for it is rejected with `ErrBadAuth` by the check of line 164. -/
theorem empty_user_token_rejected :
    createJwtToken taggedLib "" = .ok "a&+u+s+e+r.s.!=+U+N+S+E+C+U+R+E+_+S+E+C+R+E+T+_+T+O+K+E+N." ∧
    decodeAuthUserOrFail (α := Unit) taggedLib ResponseWriter.fresh
        (mkRequest (β := Unit)
          "Bearer a&+u+s+e+r.s.!=+U+N+S+E+C+U+R+E+_+S+E+C+R+E+T+_+T+O+K+E+N." "" "" (.ok ()))
        ⟨"nobody"⟩ =
      .ok (⟨some 400, [.failure ⟨"invalid auth token"⟩]⟩, ⟨"nobody"⟩, false) := by
  refine ⟨by rfl, by decide⟩

/-- C5, amended: for every serialisation and every user name `u` other than
the empty string, `createJwtToken` issues a token, and a request that carries
`Bearer ` followed by that token in the `Authorization` header makes
`decodeAuthUserOrFail` return true with the user's name set to `u` and nothing
written; and for every token of a method that is not HMAC, or whose signature
does not verify under `jwtSecret`, such a request makes it return false after
writing a 400 failure, the user left as it was. -/
theorem token_round_trip {α β : Type} (lib : JwtLib) (w : ResponseWriter α) (req : Request β)
    (user : AuthedUser) :
    (∀ u : String, u ≠ "" → ∃ tok : String, createJwtToken lib u = .ok tok ∧
      (req.Header "Authorization" = "Bearer " ++ tok →
        decodeAuthUserOrFail lib w req user = .ok (w, { Name := u }, true))) ∧
    (∀ t : Token, t.Method.isHMAC = false ∨ t.signedWith ≠ some jwtSecret →
      req.Header "Authorization" = "Bearer " ++ lib.encode t →
      decodeAuthUserOrFail lib w req user =
        .ok (writeJsonFailure w 400 GoError.ErrBadAuthHeader, user, false)) := by
  constructor
  · intro u hu
    refine ⟨lib.encode ⟨.HS256, [("user", .string u)], some jwtSecret⟩, ?_, ?_⟩
    · simp [createJwtToken, NewWithClaims, Token.SignedString, SigningMethod.isHMAC]
    · intro h
      rw [decodeAuthUserOrFail_bearer lib w req user _ h, Parse_issued]
      simp [assertString, hu]
  · intro t ht h
    obtain ⟨err, he⟩ := Parse_rejects lib t ht
    rw [decodeAuthUserOrFail_bearer lib w req user _ h, he]

/-- C5, amended, at the user `alice`, and at a token for `alice` signed with
the method `none`. -/
theorem token_round_trip_witness :
    decodeAuthUserOrFail (α := Unit) taggedLib ResponseWriter.fresh
        (mkRequest (β := Unit) ("Bearer " ++ aliceToken) "" "" (.ok ())) ⟨""⟩ =
      .ok (ResponseWriter.fresh, ⟨"alice"⟩, true) ∧
    decodeAuthUserOrFail (α := Unit) taggedLib ResponseWriter.fresh
        (mkRequest (β := Unit)
          ("Bearer " ++ taggedLib.encode ⟨.NONE, [("user", .string "alice")], none⟩)
          "" "" (.ok ())) ⟨""⟩ =
      .ok (⟨some 400, [.failure ⟨"bad authentication header format"⟩]⟩, ⟨""⟩, false) := by
  constructor
  · obtain ⟨tok, h1, h2⟩ := (token_round_trip (α := Unit) taggedLib ResponseWriter.fresh
      (mkRequest (β := Unit) ("Bearer " ++ aliceToken) "" "" (.ok ())) ⟨""⟩).1 "alice"
      (by decide)
    have ht : tok = aliceToken := by
      have h3 : createJwtToken taggedLib "alice" = .ok aliceToken := by rfl
      rw [h3] at h1
      exact (Except.ok.inj h1).symm
    subst ht
    exact h2 rfl
  · exact (token_round_trip (α := Unit) taggedLib ResponseWriter.fresh
      (mkRequest (β := Unit)
        ("Bearer " ++ taggedLib.encode ⟨.NONE, [("user", .string "alice")], none⟩)
        "" "" (.ok ())) ⟨""⟩).2 ⟨.NONE, [("user", .string "alice")], none⟩
      (Or.inl rfl) rfl

/-! ## Booking: the loop -/

theorem stamped_length (env : BookEnv) (i : Nat) (flights : List jsonBookedFlight) :
    (stamped env i flights).length = flights.length := by
  induction flights generalizing i with
  | nil => rfl
  | cons f rest ih => simp [stamped, ih]

theorem newIDs_length (env : BookEnv) (i n : Nat) : (newIDs env i n).length = n := by
  induction n generalizing i with
  | zero => rfl
  | succ n ih => simp [newIDs, ih]

theorem iteration_fst (env : BookEnv) (i : Nat) (f : jsonBookedFlight) (l : Locals)
    (fc : Collection jsonBookedFlight) :
    (∃ fs : List jsonFailure,
      (UserBookFlight.iteration env i f (l, fc)).1.w.body = l.w.body ++ fs.map .failure) ∧
    (UserBookFlight.iteration env i f (l, fc)).1.respData =
      ⟨⟨l.respData.Data.Added ++ [{ f with BookedOn := (env.Now i).Format }]⟩,
        l.respData.Context⟩ ∧
    (UserBookFlight.iteration env i f (l, fc)).1.userKey = l.userKey ∧
    (UserBookFlight.iteration env i f (l, fc)).1.user =
      ⟨l.user.Name, l.user.Password, l.user.Flights ++ [(NewRandom env i).1.String]⟩ ∧
    (UserBookFlight.iteration env i f (l, fc)).1.cas = l.cas := by
  unfold UserBookFlight.iteration
  rcases hr : NewRandom env i with ⟨id, _ | e1⟩ <;>
  rcases hu : env.upsertFault i with _ | e2
  · exact ⟨⟨[], by simp [Collection.Upsert]⟩, rfl, rfl, rfl, rfl⟩
  · exact ⟨⟨[⟨e2.Error⟩], by simp [Collection.Upsert, writeJsonFailure_body]⟩, rfl, rfl, rfl, rfl⟩
  · exact ⟨⟨[⟨e1.Error⟩], by simp [Collection.Upsert, writeJsonFailure_body]⟩, rfl, rfl, rfl, rfl⟩
  · exact ⟨⟨[⟨e1.Error⟩, ⟨e2.Error⟩], by simp [Collection.Upsert, writeJsonFailure_body]⟩,
      rfl, rfl, rfl, rfl⟩

theorem iteration_snd (env : BookEnv) (i : Nat) (f : jsonBookedFlight) (l : Locals)
    (fc : Collection jsonBookedFlight) :
    (UserBookFlight.iteration env i f (l, fc)).2 =
      (fc.Upsert (NewRandom env i).1.String { f with BookedOn := (env.Now i).Format }
        (env.upsertFault i)).2 := by
  unfold UserBookFlight.iteration
  rcases hr : NewRandom env i with ⟨id, _ | e1⟩ <;> rfl

theorem loop_fst (env : BookEnv) (flights : List jsonBookedFlight) (i : Nat) (l : Locals)
    (fc : Collection jsonBookedFlight) :
    (∃ fs : List jsonFailure,
      (UserBookFlight.loop env i flights (l, fc)).1.w.body = l.w.body ++ fs.map .failure) ∧
    (UserBookFlight.loop env i flights (l, fc)).1.respData =
      ⟨⟨l.respData.Data.Added ++ stamped env i flights⟩, l.respData.Context⟩ ∧
    (UserBookFlight.loop env i flights (l, fc)).1.userKey = l.userKey ∧
    (UserBookFlight.loop env i flights (l, fc)).1.user =
      ⟨l.user.Name, l.user.Password, l.user.Flights ++ newIDs env i flights.length⟩ ∧
    (UserBookFlight.loop env i flights (l, fc)).1.cas = l.cas := by
  induction flights generalizing i l fc with
  | nil => exact ⟨⟨[], by simp [UserBookFlight.loop]⟩, by simp [UserBookFlight.loop, stamped],
      rfl, by simp [UserBookFlight.loop, newIDs], rfl⟩
  | cons f rest ih =>
    obtain ⟨⟨fs1, h1⟩, h2, h3, h4, h5⟩ := iteration_fst env i f l fc
    obtain ⟨⟨fs2, k1⟩, k2, k3, k4, k5⟩ :=
      ih (i + 1) (UserBookFlight.iteration env i f (l, fc)).1
        (UserBookFlight.iteration env i f (l, fc)).2
    simp only [UserBookFlight.loop, Prod.mk.eta] at k1 k2 k3 k4 k5 ⊢
    refine ⟨⟨fs1 ++ fs2, ?_⟩, ?_, ?_, ?_, ?_⟩
    · rw [k1, h1]; simp
    · rw [k2, h2]; simp [stamped]
    · rw [k3, h3]
    · rw [k4, h4]; simp [newIDs]
    · rw [k5, h5]

theorem store_self {δ : Type} (c : Collection δ) (key : String) (doc : δ) :
    ∃ cas, c.store key doc key = some (doc, cas) := by
  unfold Collection.store
  cases h : c key with
  | none => exact ⟨1, by simp⟩
  | some e => exact ⟨e.2 + 1, by simp⟩

theorem store_other {δ : Type} (c : Collection δ) (key k : String) (doc : δ) (h : k ≠ key) :
    c.store key doc k = c k := by
  simp [Collection.store, h]

theorem store_cas {δ : Type} (c : Collection δ) (key : String) (doc old : δ) (cas : Cas)
    (h : c key = some (old, cas)) : c.store key doc key = some (doc, cas + 1) := by
  simp [Collection.store, h]

theorem Get_ok_iff {δ : Type} (c : Collection δ) (key : String) (doc : δ) (cas : Cas) :
    c.Get key = .ok { doc := doc, Cas := cas } ↔ c key = some (doc, cas) := by
  unfold Collection.Get
  cases h : c key with
  | none => simp
  | some e => obtain ⟨d, k⟩ := e; simp

theorem Replace_ok_iff {δ : Type} (c : Collection δ) (key : String) (doc : δ) (cas : Cas) :
    (c.Replace key doc cas).1 = none ↔ ∃ current, c key = some (current, cas) := by
  unfold Collection.Replace
  cases h : c key with
  | none => simp
  | some e =>
    obtain ⟨d, k⟩ := e
    by_cases hk : k = cas
    · simp [hk]
    · simp [hk]

theorem loop_snd_other (env : BookEnv) (flights : List jsonBookedFlight) (i : Nat) (l : Locals)
    (fc : Collection jsonBookedFlight) (key : String)
    (h : key ∉ newIDs env i flights.length) :
    (UserBookFlight.loop env i flights (l, fc)).2 key = fc key := by
  induction flights generalizing i l fc with
  | nil => rfl
  | cons f rest ih =>
    simp only [List.length_cons, newIDs, List.mem_cons, not_or] at h
    have h1 := ih (i + 1) (UserBookFlight.iteration env i f (l, fc)).1
      (UserBookFlight.iteration env i f (l, fc)).2 h.2
    simp only [UserBookFlight.loop, Prod.mk.eta] at h1 ⊢
    rw [h1, iteration_snd]
    unfold Collection.Upsert
    cases env.upsertFault i with
    | some e => rfl
    | none => exact store_other fc _ key _ h.1

theorem loop_snd_records (env : BookEnv) (flights : List jsonBookedFlight) (i : Nat)
    (l : Locals) (fc : Collection jsonBookedFlight)
    (hup : ∀ k, k < flights.length → env.upsertFault (i + k) = none)
    (hnew : (newIDs env i flights.length).Nodup) :
    ∀ p ∈ (newIDs env i flights.length).zip (stamped env i flights),
      ∃ cas, (UserBookFlight.loop env i flights (l, fc)).2 p.1 = some (p.2, cas) := by
  induction flights generalizing i l fc with
  | nil => intro p hp; simp [newIDs, stamped] at hp
  | cons f rest ih =>
    intro p hp
    simp only [List.length_cons, newIDs, List.nodup_cons] at hnew
    simp only [List.length_cons, newIDs, stamped, List.zip_cons_cons, List.mem_cons] at hp
    rcases hp with hp | hp
    · have h0 : env.upsertFault i = none := by simpa using hup 0 (by simp)
      have h1 := loop_snd_other env rest (i + 1) (UserBookFlight.iteration env i f (l, fc)).1
        (UserBookFlight.iteration env i f (l, fc)).2 _ hnew.1
      simp only [UserBookFlight.loop, Prod.mk.eta] at h1 ⊢
      rw [hp, h1, iteration_snd, h0]
      exact store_self fc _ _
    · have hup2 : ∀ k, k < rest.length → env.upsertFault (i + 1 + k) = none := by
        intro k hk
        have := hup (k + 1) (by simp; omega)
        rwa [show i + (k + 1) = i + 1 + k by omega] at this
      have h1 := ih (i + 1) (UserBookFlight.iteration env i f (l, fc)).1
        (UserBookFlight.iteration env i f (l, fc)).2 hup2 hnew.2 p hp
      simpa only [UserBookFlight.loop, Prod.mk.eta] using h1

theorem stamped_get (env : BookEnv) (flights : List jsonBookedFlight) (i k : Nat)
    (f : jsonBookedFlight) (h : (stamped env i flights)[k]? = some f) :
    ∃ g, flights[k]? = some g ∧ f = { g with BookedOn := (env.Now (i + k)).Format } := by
  induction flights generalizing i k with
  | nil => simp [stamped] at h
  | cons g rest ih =>
    cases k with
    | zero =>
      simp only [stamped, List.getElem?_cons_zero, Option.some.injEq] at h
      exact ⟨g, by simp, by simp [← h]⟩
    | succ k =>
      simp only [stamped, List.getElem?_cons_succ] at h
      obtain ⟨g2, hg, hf⟩ := ih (i + 1) k h
      exact ⟨g2, by simpa using hg, by rw [hf, show i + 1 + k = i + (k + 1) by omega]⟩

theorem newIDs_generated (env : BookEnv) (i n : Nat)
    (h : ∀ k, k < n → ∃ u, env.random (i + k) = .ok u) :
    ∀ id ∈ newIDs env i n, ∃ k u, k < n ∧ env.random (i + k) = .ok u ∧ id = u.String := by
  induction n generalizing i with
  | zero => intro id hid; simp [newIDs] at hid
  | succ n ih =>
    intro id hid
    simp only [newIDs, List.mem_cons] at hid
    rcases hid with hid | hid
    · obtain ⟨u, hu⟩ := h 0 (by omega)
      rw [Nat.add_zero] at hu
      exact ⟨0, u, by omega, by simpa using hu, by rw [hid]; simp [NewRandom, hu]⟩
    · have h2 : ∀ k, k < n → ∃ u, env.random (i + 1 + k) = .ok u := by
        intro k hk
        have := h (k + 1) (by omega)
        rwa [show i + (k + 1) = i + 1 + k by omega] at this
      obtain ⟨k, u, hk, hu, hid2⟩ := ih (i + 1) h2 id hid
      exact ⟨k + 1, u, by omega, by rwa [show i + (k + 1) = i + 1 + k by omega], hid2⟩

theorem load_ok (lib : JwtLib) (userCollection : Collection jsonUser)
    (w : ResponseWriter jsonUserBookFlightResp) (req : Request jsonUserBookFlightReq)
    (name : String) (user : jsonUser) (cas : Cas) (flights : List jsonBookedFlight)
    (hauth : decodeAuthUserOrFail lib w req { Name := "" } = .ok (w, { Name := name }, true))
    (hbody : req.Body = .ok { Flights := flights })
    (hdoc : userCollection name = some (user, cas)) :
    UserBookFlight.load lib userCollection w req =
      .ok (.inr ({ w := w, respData := { Data := { Added := [] }, Context := [] },
                   userKey := name, user := user, cas := cas }, flights)) := by
  simp [UserBookFlight.load, hauth, decodeReqOrFail, hbody, Collection.Get, hdoc,
    GetResult.Content]

theorem commit_ok (userCollection : Collection jsonUser) (l : Locals) (current : jsonUser)
    (h : userCollection l.userKey = some (current, l.cas)) :
    UserBookFlight.commit userCollection l =
      (encodeRespOrFail l.w l.respData, userCollection.store l.userKey l.user) := by
  simp [UserBookFlight.commit, Collection.Replace, h]

theorem commit_stale (userCollection : Collection jsonUser) (l : Locals) (current : jsonUser)
    (cas : Cas) (h : userCollection l.userKey = some (current, cas)) (hne : cas ≠ l.cas) :
    UserBookFlight.commit userCollection l =
      (writeJsonFailure l.w 500 GoError.ErrCasMismatch, userCollection) := by
  simp [UserBookFlight.commit, Collection.Replace, h, hne]

theorem UserBookFlight_ok (lib : JwtLib) (env : BookEnv) (store : Store)
    (w : ResponseWriter jsonUserBookFlightResp) (req : Request jsonUserBookFlightReq)
    (name : String) (user current : jsonUser) (cas : Cas) (flights : List jsonBookedFlight)
    (hauth : decodeAuthUserOrFail lib w req { Name := "" } = .ok (w, { Name := name }, true))
    (hbody : req.Body = .ok { Flights := flights })
    (hdoc : store.userCollection name = some (user, cas))
    (hcas : env.interfere store.userCollection name = some (current, cas)) :
    UserBookFlight lib env store w req =
      .ok (encodeRespOrFail
          (UserBookFlight.loop env 0 flights
            ({ w := w, respData := { Data := { Added := [] }, Context := [] },
               userKey := name, user := user, cas := cas }, store.flightCollection)).1.w
          { Data := { Added := stamped env 0 flights }, Context := [] },
        { userCollection := (env.interfere store.userCollection).store name
            { user with Flights := user.Flights ++ newIDs env 0 flights.length },
          flightCollection := (UserBookFlight.loop env 0 flights
            ({ w := w, respData := { Data := { Added := [] }, Context := [] },
               userKey := name, user := user, cas := cas }, store.flightCollection)).2 }) := by
  obtain ⟨_, k2, k3, k4, k5⟩ := loop_fst env flights 0
    { w := w, respData := { Data := { Added := [] }, Context := [] },
      userKey := name, user := user, cas := cas } store.flightCollection
  simp only [List.nil_append] at k2
  unfold UserBookFlight
  rw [load_ok lib store.userCollection w req name user cas flights hauth hbody hdoc]
  simp only
  rw [commit_ok _ _ current (by rw [k3, k5]; exact hcas), k2, k3, k4]

theorem newIDs_of_random (e1 e2 : BookEnv) (h : e1.random = e2.random) (i n : Nat) :
    newIDs e1 i n = newIDs e2 i n := by
  induction n generalizing i with
  | zero => rfl
  | succ n ih => simp [newIDs, NewRandom, h, ih]

theorem stamped_of_Now (e1 e2 : BookEnv) (h : e1.Now = e2.Now) (i : Nat)
    (flights : List jsonBookedFlight) : stamped e1 i flights = stamped e2 i flights := by
  induction flights generalizing i with
  | nil => rfl
  | cons f rest ih => simp [stamped, h, ih]

/-- C6: a booking of zero flights, when the `Get` succeeds (it finds the
traveler document) and the `Replace` succeeds (the document still carries the
version token the `Get` returned, see `Replace_ok_iff`), writes the response
with an empty `added` list (in Go the nil slice, of length 0) as its only
write (status 200 on a fresh writer), stores the traveler document as it was
read, flight-ID list included, and leaves the flight collection as it was. -/
theorem UserBookFlight_no_flights (lib : JwtLib) (env : BookEnv) (store : Store)
    (w : ResponseWriter jsonUserBookFlightResp) (req : Request jsonUserBookFlightReq)
    (name : String) (user current : jsonUser) (cas : Cas)
    (hauth : decodeAuthUserOrFail lib w req { Name := "" } = .ok (w, { Name := name }, true))
    (hbody : req.Body = .ok { Flights := [] })
    (hdoc : store.userCollection name = some (user, cas))
    (hcas : env.interfere store.userCollection name = some (current, cas)) :
    ∃ store' : Store,
      UserBookFlight lib env store w req =
        .ok (encodeRespOrFail w { Data := { Added := [] }, Context := [] }, store') ∧
      (encodeRespOrFail w ({ Data := { Added := [] }, Context := [] } :
          jsonUserBookFlightResp)).body =
        w.body ++ [.data { Data := { Added := [] }, Context := [] }] ∧
      (w.status = none →
        (encodeRespOrFail w ({ Data := { Added := [] }, Context := [] } :
          jsonUserBookFlightResp)).status = some 200) ∧
      store'.userCollection name = some (user, cas + 1) ∧
      store'.flightCollection = store.flightCollection := by
  have h := UserBookFlight_ok lib env store w req name user current cas [] hauth hbody hdoc hcas
  simp only [UserBookFlight.loop, stamped, List.length_nil, newIDs, List.append_nil] at h
  exact ⟨_, h, encodeRespOrFail_body w _, encodeRespOrFail_status w _,
    store_cas _ name _ current cas hcas, rfl⟩

/-- C6 at a booking of zero flights by `alice`. -/
theorem UserBookFlight_no_flights_witness :
    ∃ store' : Store,
      UserBookFlight taggedLib calmEnv aliceStore ResponseWriter.fresh (bookRequest []) =
        .ok (⟨some 200, [.data { Data := { Added := [] }, Context := [] }]⟩, store') ∧
      store'.userCollection "alice" = some (⟨"alice", "secret", ["f1", "f2"]⟩, 8) ∧
      store'.flightCollection = aliceStore.flightCollection := by
  obtain ⟨store', h1, _, _, h4, h5⟩ := UserBookFlight_no_flights taggedLib calmEnv aliceStore
    ResponseWriter.fresh (bookRequest []) "alice" ⟨"alice", "secret", ["f1", "f2"]⟩
    ⟨"alice", "secret", ["f1", "f2"]⟩ 7 (by decide) rfl (by decide) (by decide)
  exact ⟨store', h1, h4, h5⟩

/-- C3: for every request of flights and every pattern of `Upsert` failures
(and of identifier-generation failures), when the `Get` succeeds (it finds
the traveler document) and the `Replace` succeeds (the document still carries
the version token the `Get` returned, see `Replace_ok_iff`), the handler
stores the traveler document with the old flight-ID list followed by the
identifiers of all iterations in order, one per requested flight, and the
last write to the response is the response value whose `added` list is the
requested flights in order, each with `bookedOn` overwritten by the date read
in its iteration.  The run in which every `Upsert` succeeds stores the same
user collection and ends with the same write. -/
theorem UserBookFlight_upsert_failures (lib : JwtLib) (env : BookEnv) (store : Store)
    (w : ResponseWriter jsonUserBookFlightResp) (req : Request jsonUserBookFlightReq)
    (name : String) (user current : jsonUser) (cas : Cas) (flights : List jsonBookedFlight)
    (hauth : decodeAuthUserOrFail lib w req { Name := "" } = .ok (w, { Name := name }, true))
    (hbody : req.Body = .ok { Flights := flights })
    (hdoc : store.userCollection name = some (user, cas))
    (hcas : env.interfere store.userCollection name = some (current, cas)) :
    ∃ (w' w0 : ResponseWriter jsonUserBookFlightResp) (store' store0 : Store),
      UserBookFlight lib env store w req = .ok (w', store') ∧
      store'.userCollection name =
        some ({ user with Flights := user.Flights ++ newIDs env 0 flights.length }, cas + 1) ∧
      (newIDs env 0 flights.length).length = flights.length ∧
      w'.body.getLast? =
        some (.data { Data := { Added := stamped env 0 flights }, Context := [] }) ∧
      (stamped env 0 flights).length = flights.length ∧
      (∀ (k : Nat) (f : jsonBookedFlight), (stamped env 0 flights)[k]? = some f →
        ∃ g, flights[k]? = some g ∧ f = { g with BookedOn := (env.Now k).Format }) ∧
      UserBookFlight lib { env with upsertFault := fun _ => none } store w req =
        .ok (w0, store0) ∧
      store0.userCollection = store'.userCollection ∧
      w0.body.getLast? = w'.body.getLast? := by
  have h := UserBookFlight_ok lib env store w req name user current cas flights
    hauth hbody hdoc hcas
  have h0 := UserBookFlight_ok lib { env with upsertFault := fun _ => none } store w req name
    user current cas flights hauth hbody hdoc hcas
  rw [newIDs_of_random { env with upsertFault := fun _ => none } env rfl,
    stamped_of_Now { env with upsertFault := fun _ => none } env rfl] at h0
  refine ⟨_, _, _, _, h, store_cas _ name _ current cas hcas, newIDs_length env 0 _, ?_,
    stamped_length env 0 flights, ?_, h0, rfl, ?_⟩
  · simp [encodeRespOrFail_body]
  · intro k f hk
    simpa using stamped_get env flights 0 k f hk
  · simp [encodeRespOrFail_body]

/-- C3 at a booking of two flights by `alice` whose two flight-record writes
both fail. -/
theorem UserBookFlight_upsert_failures_witness :
    ∃ (w' : ResponseWriter jsonUserBookFlightResp) (store' : Store),
      UserBookFlight taggedLib faultyEnv aliceStore ResponseWriter.fresh
        (bookRequest [flightLAX, flightSEA]) = .ok (w', store') ∧
      store'.userCollection "alice" =
        some (⟨"alice", "secret", ["f1", "f2", "id-0", "id-1"]⟩, 8) ∧
      w'.body.getLast? = some (.data { Data := { Added :=
        [{ flightLAX with BookedOn := "03/09/2024" },
         { flightSEA with BookedOn := "03/09/2024" }] }, Context := [] }) := by
  obtain ⟨w', _, store', _, h1, h2, _, h4, _⟩ := UserBookFlight_upsert_failures taggedLib
    faultyEnv aliceStore ResponseWriter.fresh (bookRequest [flightLAX, flightSEA]) "alice"
    ⟨"alice", "secret", ["f1", "f2"]⟩ ⟨"alice", "secret", ["f1", "f2"]⟩ 7
    [flightLAX, flightSEA] (by decide) rfl (by decide) (by decide)
  exact ⟨w', store', h1, h2, h4⟩

/-- C1 as stated fails at three bookings by `alice`, her document not
modified between the `Get` and the `Replace` in any of them.  When the
`Upsert` of her one flight is refused, her flight-ID list ends with the new
identifier `id-0` and the flight collection has no record under `id-0`.  When
`uuid.NewRandom` fails in both iterations of a booking of two flights, her
list ends with `uuid.Nil` twice and the one record under it is the second
flight.  When `uuid.NewRandom` returns `id-0` in both iterations, her list
ends with `id-0` twice and the one record under it is the second flight. -/
theorem UserBookFlight_unwritten_record :
    faultyEnv.interfere aliceStore.userCollection "alice" =
      aliceStore.userCollection "alice" ∧
    (UserBookFlight taggedLib faultyEnv aliceStore ResponseWriter.fresh
        (bookRequest [flightLAX])).toOption.map
        (fun r => (r.2.userCollection "alice", r.2.flightCollection "id-0")) =
      some (some (⟨"alice", "secret", ["f1", "f2", "id-0"]⟩, 8), none) ∧
    dryEnv.interfere aliceStore.userCollection "alice" =
      aliceStore.userCollection "alice" ∧
    (UserBookFlight taggedLib dryEnv aliceStore ResponseWriter.fresh
        (bookRequest [flightLAX, flightSEA])).toOption.map
        (fun r => (r.2.userCollection "alice",
          r.2.flightCollection "00000000-0000-0000-0000-000000000000")) =
      some (some (⟨"alice", "secret", ["f1", "f2",
          "00000000-0000-0000-0000-000000000000",
          "00000000-0000-0000-0000-000000000000"]⟩, 8),
        some ({ flightSEA with BookedOn := "03/09/2024" }, 2)) ∧
    stuckEnv.interfere aliceStore.userCollection "alice" =
      aliceStore.userCollection "alice" ∧
    (UserBookFlight taggedLib stuckEnv aliceStore ResponseWriter.fresh
        (bookRequest [flightLAX, flightSEA])).toOption.map
        (fun r => (r.2.userCollection "alice", r.2.flightCollection "id-0")) =
      some (some (⟨"alice", "secret", ["f1", "f2", "id-0", "id-0"]⟩, 8),
        some ({ flightSEA with BookedOn := "03/09/2024" }, 2)) := by
  refine ⟨rfl, by decide, rfl, by decide, rfl, by decide⟩

/-- C1, amended: when the request authenticates as a traveler whose document
the `Get` finds with flight-ID list `L`, the document is not modified between
the `Get` and the `Replace`, every `Upsert` of the loop succeeds, and every
call of `uuid.NewRandom` in the loop succeeds and returns a new identifier
(one not returned in another iteration, not in `L` and not a key of the
flight collection), then after the handler the stored traveler document has
the flight-ID list `L` followed by exactly `N` new identifiers, those the
calls returned (length `|L| + N`), under the next version token; `N` new
flight records exist under those identifiers, the record under the `k`-th
identifier being the `k`-th requested flight with `bookedOn` equal to the
date `time.Now` gives in that iteration, formatted MM/DD/YYYY; and no other
key of the flight collection has changed. -/
theorem UserBookFlight_books (lib : JwtLib) (env : BookEnv) (store : Store)
    (w : ResponseWriter jsonUserBookFlightResp) (req : Request jsonUserBookFlightReq)
    (name : String) (user : jsonUser) (cas : Cas) (flights : List jsonBookedFlight)
    (hauth : decodeAuthUserOrFail lib w req { Name := "" } = .ok (w, { Name := name }, true))
    (hbody : req.Body = .ok { Flights := flights })
    (hdoc : store.userCollection name = some (user, cas))
    (hsame : env.interfere store.userCollection name = store.userCollection name)
    (hup : ∀ i, i < flights.length → env.upsertFault i = none)
    (hrand : ∀ i, i < flights.length → ∃ u, env.random i = .ok u)
    (hnew : (newIDs env 0 flights.length).Nodup)
    (hfresh : ∀ id ∈ newIDs env 0 flights.length,
      id ∉ user.Flights ∧ store.flightCollection id = none) :
    ∃ (w' : ResponseWriter jsonUserBookFlightResp) (store' : Store),
      UserBookFlight lib env store w req = .ok (w', store') ∧
      store'.userCollection name =
        some ({ user with Flights := user.Flights ++ newIDs env 0 flights.length }, cas + 1) ∧
      (newIDs env 0 flights.length).length = flights.length ∧
      (user.Flights ++ newIDs env 0 flights.length).length =
        user.Flights.length + flights.length ∧
      (newIDs env 0 flights.length).Nodup ∧
      (∀ id ∈ newIDs env 0 flights.length,
        id ∉ user.Flights ∧ store.flightCollection id = none ∧
        ∃ k u, k < flights.length ∧ env.random k = .ok u ∧ id = u.String) ∧
      ((newIDs env 0 flights.length).zip (stamped env 0 flights)).length = flights.length ∧
      (∀ p ∈ (newIDs env 0 flights.length).zip (stamped env 0 flights),
        ∃ c, store'.flightCollection p.1 = some (p.2, c)) ∧
      (∀ (k : Nat) (f : jsonBookedFlight), (stamped env 0 flights)[k]? = some f →
        ∃ g, flights[k]? = some g ∧ f = { g with BookedOn := (env.Now k).Format }) ∧
      (∀ key, key ∉ newIDs env 0 flights.length →
        store'.flightCollection key = store.flightCollection key) := by
  have hcas : env.interfere store.userCollection name = some (user, cas) := by
    rw [hsame, hdoc]
  have h := UserBookFlight_ok lib env store w req name user user cas flights
    hauth hbody hdoc hcas
  refine ⟨_, _, h, store_cas _ name _ user cas hcas, newIDs_length env 0 _, ?_, hnew, ?_, ?_,
    ?_, ?_, ?_⟩
  · simp [newIDs_length]
  · intro id hid
    obtain ⟨k, u, hk, hu, hid2⟩ :=
      newIDs_generated env 0 flights.length (by simpa using hrand) id hid
    exact ⟨(hfresh id hid).1, (hfresh id hid).2, k, u, hk, by simpa using hu, hid2⟩
  · simp [newIDs_length, stamped_length]
  · exact loop_snd_records env flights 0 _ _ (by simpa using hup) hnew
  · intro k f hk
    simpa using stamped_get env flights 0 k f hk
  · intro key hkey
    exact loop_snd_other env flights 0 _ _ key hkey

/-- C1, amended, at a booking of two flights by `alice`. -/
theorem UserBookFlight_books_witness :
    ∃ (w' : ResponseWriter jsonUserBookFlightResp) (store' : Store),
      UserBookFlight taggedLib calmEnv aliceStore ResponseWriter.fresh
        (bookRequest [flightLAX, flightSEA]) = .ok (w', store') ∧
      store'.userCollection "alice" =
        some (⟨"alice", "secret", ["f1", "f2", "id-0", "id-1"]⟩, 8) ∧
      (∃ c, store'.flightCollection "id-0" =
        some ({ flightLAX with BookedOn := "03/09/2024" }, c)) ∧
      (∃ c, store'.flightCollection "id-1" =
        some ({ flightSEA with BookedOn := "03/09/2024" }, c)) := by
  obtain ⟨w', store', h1, h2, _, _, _, _, _, h8, _⟩ := UserBookFlight_books taggedLib calmEnv
    aliceStore ResponseWriter.fresh (bookRequest [flightLAX, flightSEA]) "alice"
    ⟨"alice", "secret", ["f1", "f2"]⟩ 7 [flightLAX, flightSEA] (by decide) rfl (by decide)
    rfl (by intro i _; rfl)
    (by intro i _; simp only [calmEnv]; split_ifs <;> exact ⟨_, rfl⟩)
    (by decide)
    (by
      intro id hid
      have hids : newIDs calmEnv 0 [flightLAX, flightSEA].length = ["id-0", "id-1"] := by
        decide
      rw [hids] at hid
      simp only [List.mem_cons, List.mem_singleton, List.not_mem_nil, or_false] at hid
      rcases hid with rfl | rfl <;> exact ⟨by decide, rfl⟩)
  exact ⟨w', store', h1, h2,
    h8 ("id-0", { flightLAX with BookedOn := "03/09/2024" }) (by decide),
    h8 ("id-1", { flightSEA with BookedOn := "03/09/2024" }) (by decide)⟩

/-! ## Booking: two runs -/

theorem Run.step_looping_cons (lib : JwtLib) (env : BookEnv) (l : Locals)
    (f : jsonBookedFlight) (rest : List jsonBookedFlight) (i : Nat) (store : Store) :
    Run.step lib env (.looping l (f :: rest) i) store =
      (.looping (UserBookFlight.iteration env i f (l, store.flightCollection)).1 rest (i + 1),
        { store with flightCollection :=
            (UserBookFlight.iteration env i f (l, store.flightCollection)).2 },
        some .Upsert) := rfl

theorem Run.step_looping_nil (lib : JwtLib) (env : BookEnv) (l : Locals) (i : Nat)
    (store : Store) :
    Run.step lib env (.looping l [] i) store =
      (.done (UserBookFlight.commit store.userCollection l).1,
        { store with userCollection := (UserBookFlight.commit store.userCollection l).2 },
        some .Replace) := rfl

theorem userOps_cons_upsert (who : Who) (t : List (Who × StoreOp)) :
    userOps ((who, StoreOp.Upsert) :: t) = userOps t := by
  simp [userOps]

theorem userOps_cons_get (who : Who) (t : List (Who × StoreOp)) :
    userOps ((who, StoreOp.Get) :: t) = (who, StoreOp.Get) :: userOps t := by
  simp [userOps]

theorem userOps_cons_replace (who : Who) (t : List (Who × StoreOp)) :
    userOps ((who, StoreOp.Replace) :: t) = (who, StoreOp.Replace) :: userOps t := by
  simp [userOps]

theorem race_done (lib : JwtLib) (envA envB : BookEnv)
    (wa wb : ResponseWriter jsonUserBookFlightResp) (store : Store) (sched : List Who) :
    Race.run lib envA envB ⟨.done wa, .done wb, store⟩ sched = ⟨.done wa, .done wb, store⟩ ∧
    Race.trace lib envA envB ⟨.done wa, .done wb, store⟩ sched = [] := by
  induction sched with
  | nil => exact ⟨rfl, rfl⟩
  | cons who rest ih =>
    cases who with
    | A => simpa [Race.run, Race.trace, Race.step, Run.step] using ih
    | B => simpa [Race.run, Race.trace, Race.step, Run.step] using ih

theorem race_phase3 (lib : JwtLib) (envA envB : BookEnv)
    (wa wB : ResponseWriter jsonUserBookFlightResp) (name : String) (cas : Cas)
    (docA : jsonUser) (uc : Collection jsonUser) (huc : uc name = some (docA, cas + 1))
    (sched : List Who) :
    ∀ (lB : Locals) (pB : List jsonBookedFlight) (iB : Nat) (fc : Collection jsonBookedFlight),
      lB.userKey = name → lB.cas = cas →
      (∃ fs : List jsonFailure, lB.w.body = wB.body ++ fs.map .failure) →
      userOps (Race.trace lib envA envB ⟨.done wa, .looping lB pB iB, ⟨uc, fc⟩⟩ sched) =
        [(Who.B, StoreOp.Replace)] →
      ∃ (wb : ResponseWriter jsonUserBookFlightResp) (fc2 : Collection jsonBookedFlight),
        Race.run lib envA envB ⟨.done wa, .looping lB pB iB, ⟨uc, fc⟩⟩ sched =
          ⟨.done wa, .done (writeJsonFailure wb 500 GoError.ErrCasMismatch), ⟨uc, fc2⟩⟩ ∧
        ∃ fs : List jsonFailure, wb.body = wB.body ++ fs.map .failure := by
  induction sched with
  | nil =>
    intro lB pB iB fc _ _ _ h
    simp [Race.trace, userOps] at h
  | cons who rest ih =>
    intro lB pB iB fc hkey hcas hw h
    cases who with
    | A =>
      simp only [Race.run, Race.trace, Race.step, Run.step, Option.map_none', Option.toList,
        List.nil_append] at h ⊢
      exact ih lB pB iB fc hkey hcas hw h
    | B =>
      cases pB with
      | cons f r =>
        obtain ⟨⟨fs1, h1⟩, _, h3, _, h5⟩ := iteration_fst envB iB f lB fc
        obtain ⟨fs0, h0⟩ := hw
        simp only [Race.run, Race.trace, Race.step, Run.step_looping_cons, Option.map_some',
          Option.toList, List.singleton_append, userOps_cons_upsert] at h ⊢
        exact ih _ r (iB + 1) _ (by rw [h3, hkey]) (by rw [h5, hcas])
          ⟨fs0 ++ fs1, by rw [h1, h0]; simp⟩ h
      | nil =>
        have hc := commit_stale uc lB docA (cas + 1) (by rw [hkey]; exact huc)
          (by rw [hcas]; exact Nat.succ_ne_self cas)
        simp only [Race.run, Race.step, Run.step_looping_nil, hc]
        exact ⟨lB.w, fc, (race_done lib envA envB _ _ _ rest).1, hw⟩

theorem Run.steps_loop (lib : JwtLib) (env : BookEnv) (uc : Collection jsonUser)
    (pending : List jsonBookedFlight) (i : Nat) (l : Locals)
    (fc : Collection jsonBookedFlight) :
    Run.steps lib env pending.length (.looping l pending i, ⟨uc, fc⟩) =
      (.looping (UserBookFlight.loop env i pending (l, fc)).1 [] (i + pending.length),
        ⟨uc, (UserBookFlight.loop env i pending (l, fc)).2⟩) := by
  induction pending generalizing i l fc with
  | nil => rfl
  | cons f rest ih =>
    simp only [List.length_cons, Run.steps, Run.step_looping_cons, UserBookFlight.loop]
    rw [ih (i + 1)]
    simp only [Prod.mk.eta]
    rw [show i + 1 + rest.length = i + (rest.length + 1) by omega]

theorem Run.steps_add (lib : JwtLib) (env : BookEnv) (m n : Nat) (c : Run × Store) :
    Run.steps lib env (m + n) c = Run.steps lib env n (Run.steps lib env m c) := by
  induction m generalizing c with
  | zero => simp [Run.steps]
  | succ m ih => rw [show m + 1 + n = (m + n) + 1 by omega]; simp only [Run.steps]; exact ih _

/-- The steps of a run on its own, with no other client writing, end in the
result of `UserBookFlight`. -/
theorem UserBookFlight_steps (lib : JwtLib) (env : BookEnv) (store : Store)
    (w : ResponseWriter jsonUserBookFlightResp) (req : Request jsonUserBookFlightReq)
    (hid : env.interfere = fun c => c) :
    ∃ n : Nat,
      match UserBookFlight lib env store w req with
      | .ok (w2, store2) => Run.steps lib env n (.idle w req, store) = (.done w2, store2)
      | .error p => Run.steps lib env n (.idle w req, store) = (.panicked p, store) := by
  unfold UserBookFlight
  rcases hl : UserBookFlight.load lib store.userCollection w req with p | ⟨w2 | ⟨l, flights⟩⟩
  · exact ⟨1, by simp [Run.steps, Run.step, hl]⟩
  · exact ⟨1, by simp [Run.steps, Run.step, hl]⟩
  · refine ⟨1 + (flights.length + 1), ?_⟩
    rw [Run.steps_add, Run.steps_add]
    obtain ⟨uc, fc⟩ := store
    simp only [Run.steps, Run.step, hl, Run.steps_loop, hid] at hl ⊢

theorem LoopInv_init (env : BookEnv) (w : ResponseWriter jsonUserBookFlightResp)
    (name : String) (cas : Cas) (user : jsonUser) (flights : List jsonBookedFlight) :
    LoopInv env w name cas user (newIDs env 0 flights.length) (stamped env 0 flights)
      { w := w, respData := { Data := { Added := [] }, Context := [] }, userKey := name,
        user := user, cas := cas } flights 0 :=
  ⟨rfl, rfl, ⟨[], by simp⟩, rfl, rfl, rfl, rfl, by simp⟩

theorem LoopInv_iteration (env : BookEnv) (w0 : ResponseWriter jsonUserBookFlightResp)
    (name : String) (cas : Cas) (user : jsonUser) (ids : List String)
    (added : List jsonBookedFlight) (l : Locals) (f : jsonBookedFlight)
    (rest : List jsonBookedFlight) (i : Nat) (fc : Collection jsonBookedFlight)
    (h : LoopInv env w0 name cas user ids added l (f :: rest) i) :
    LoopInv env w0 name cas user ids added
      (UserBookFlight.iteration env i f (l, fc)).1 rest (i + 1) := by
  obtain ⟨⟨fs1, h1⟩, h2, h3, h4, h5⟩ := iteration_fst env i f l fc
  obtain ⟨k1, k2, ⟨fs0, k3⟩, k4, k5, k6, k7, k8⟩ := h
  refine ⟨by rw [h3, k1], by rw [h5, k2], ⟨fs0 ++ fs1, by rw [h1, k3]; simp⟩,
    by rw [h4, k4], by rw [h4, k5], ?_, by rw [h2, k7], ?_⟩
  · rw [h4, ← k6]; simp [newIDs]
  · rw [h2, ← k8]; simp [stamped]

theorem LoopInv_final (env : BookEnv) (w0 : ResponseWriter jsonUserBookFlightResp)
    (name : String) (cas : Cas) (user : jsonUser) (ids : List String)
    (added : List jsonBookedFlight) (l : Locals) (i : Nat)
    (h : LoopInv env w0 name cas user ids added l [] i) :
    l.user = ⟨user.Name, user.Password, user.Flights ++ ids⟩ ∧
    l.respData = ⟨⟨added⟩, []⟩ := by
  obtain ⟨_, _, _, k4, k5, k6, k7, k8⟩ := h
  simp only [List.length_nil, newIDs, List.append_nil, stamped] at k6 k8
  constructor
  · rw [← k4, ← k5, ← k6]
  · rw [← k7, ← k8]

theorem race_phase2 (lib : JwtLib) (envA envB : BookEnv)
    (wA wB : ResponseWriter jsonUserBookFlightResp) (name : String) (cas : Cas)
    (user : jsonUser) (idsA : List String) (addedA : List jsonBookedFlight)
    (uc : Collection jsonUser) (huc : uc name = some (user, cas)) (sched : List Who) :
    ∀ (lA : Locals) (pA : List jsonBookedFlight) (iA : Nat) (lB : Locals)
      (pB : List jsonBookedFlight) (iB : Nat) (fc : Collection jsonBookedFlight),
      LoopInv envA wA name cas user idsA addedA lA pA iA →
      lB.userKey = name → lB.cas = cas →
      (∃ fs : List jsonFailure, lB.w.body = wB.body ++ fs.map .failure) →
      userOps (Race.trace lib envA envB
          ⟨.looping lA pA iA, .looping lB pB iB, ⟨uc, fc⟩⟩ sched) =
        [(Who.A, StoreOp.Replace), (Who.B, StoreOp.Replace)] →
      ∃ (wa wb : ResponseWriter jsonUserBookFlightResp) (fc2 : Collection jsonBookedFlight),
        Race.run lib envA envB ⟨.looping lA pA iA, .looping lB pB iB, ⟨uc, fc⟩⟩ sched =
          ⟨.done (encodeRespOrFail wa ⟨⟨addedA⟩, []⟩),
            .done (writeJsonFailure wb 500 GoError.ErrCasMismatch),
            ⟨uc.store name ⟨user.Name, user.Password, user.Flights ++ idsA⟩, fc2⟩⟩ ∧
        (∃ fs : List jsonFailure, wa.body = wA.body ++ fs.map .failure) ∧
        ∃ fs : List jsonFailure, wb.body = wB.body ++ fs.map .failure := by
  induction sched with
  | nil =>
    intro lA pA iA lB pB iB fc _ _ _ _ h
    simp [Race.trace, userOps] at h
  | cons who rest ih =>
    intro lA pA iA lB pB iB fc hA hkey hcas hw h
    cases who with
    | A =>
      cases pA with
      | cons f r =>
        simp only [Race.run, Race.trace, Race.step, Run.step_looping_cons, Option.map_some',
          Option.toList, List.singleton_append, userOps_cons_upsert] at h ⊢
        exact ih _ r (iA + 1) lB pB iB _
          (LoopInv_iteration envA wA name cas user idsA addedA lA f r iA fc hA) hkey hcas hw h
      | nil =>
        obtain ⟨hu, hr⟩ := LoopInv_final envA wA name cas user idsA addedA lA iA hA
        have hc := commit_ok uc lA user (by rw [hA.1, hA.2.1]; exact huc)
        simp only [Race.run, Race.trace, Race.step, Run.step_looping_nil, hc, Option.map_some',
          Option.toList, List.singleton_append, userOps_cons_replace, List.cons.injEq,
          true_and] at h ⊢
        rw [hA.1, hu, hr]
        obtain ⟨wb, fc2, h1, h2⟩ := race_phase3 lib envA envB
          (encodeRespOrFail lA.w ⟨⟨addedA⟩, []⟩) wB name cas
          ⟨user.Name, user.Password, user.Flights ++ idsA⟩
          (uc.store name ⟨user.Name, user.Password, user.Flights ++ idsA⟩)
          (store_cas uc name _ user cas huc) rest lB pB iB fc hkey hcas hw
          (by rw [hA.1, hu, hr] at h; exact h)
        exact ⟨lA.w, wb, fc2, h1, hA.2.2.1, h2⟩
    | B =>
      cases pB with
      | cons f r =>
        obtain ⟨⟨fs1, h1⟩, _, h3, _, h5⟩ := iteration_fst envB iB f lB fc
        obtain ⟨fs0, h0⟩ := hw
        simp only [Race.run, Race.trace, Race.step, Run.step_looping_cons, Option.map_some',
          Option.toList, List.singleton_append, userOps_cons_upsert] at h ⊢
        exact ih lA pA iA _ r (iB + 1) _ hA (by rw [h3, hkey]) (by rw [h5, hcas])
          ⟨fs0 ++ fs1, by rw [h1, h0]; simp⟩ h
      | nil =>
        simp [Race.trace, Race.step, Run.step_looping_nil, userOps_cons_replace] at h

theorem race_phase1 (lib : JwtLib) (envA envB : BookEnv)
    (wA wB : ResponseWriter jsonUserBookFlightResp) (reqB : Request jsonUserBookFlightReq)
    (name : String) (cas : Cas) (user : jsonUser) (idsA : List String)
    (addedA flightsB : List jsonBookedFlight) (uc : Collection jsonUser)
    (huc : uc name = some (user, cas))
    (hauthB : decodeAuthUserOrFail lib wB reqB { Name := "" } = .ok (wB, { Name := name }, true))
    (hbodyB : reqB.Body = .ok { Flights := flightsB })
    (sched : List Who) :
    ∀ (lA : Locals) (pA : List jsonBookedFlight) (iA : Nat) (fc : Collection jsonBookedFlight),
      LoopInv envA wA name cas user idsA addedA lA pA iA →
      userOps (Race.trace lib envA envB ⟨.looping lA pA iA, .idle wB reqB, ⟨uc, fc⟩⟩ sched) =
        [(Who.B, StoreOp.Get), (Who.A, StoreOp.Replace), (Who.B, StoreOp.Replace)] →
      ∃ (wa wb : ResponseWriter jsonUserBookFlightResp) (fc2 : Collection jsonBookedFlight),
        Race.run lib envA envB ⟨.looping lA pA iA, .idle wB reqB, ⟨uc, fc⟩⟩ sched =
          ⟨.done (encodeRespOrFail wa ⟨⟨addedA⟩, []⟩),
            .done (writeJsonFailure wb 500 GoError.ErrCasMismatch),
            ⟨uc.store name ⟨user.Name, user.Password, user.Flights ++ idsA⟩, fc2⟩⟩ ∧
        (∃ fs : List jsonFailure, wa.body = wA.body ++ fs.map .failure) ∧
        ∃ fs : List jsonFailure, wb.body = wB.body ++ fs.map .failure := by
  induction sched with
  | nil =>
    intro lA pA iA fc _ h
    simp [Race.trace, userOps] at h
  | cons who rest ih =>
    intro lA pA iA fc hA h
    cases who with
    | A =>
      cases pA with
      | cons f r =>
        simp only [Race.run, Race.trace, Race.step, Run.step_looping_cons, Option.map_some',
          Option.toList, List.singleton_append, userOps_cons_upsert] at h ⊢
        exact ih _ r (iA + 1) _
          (LoopInv_iteration envA wA name cas user idsA addedA lA f r iA fc hA) h
      | nil =>
        simp [Race.trace, Race.step, Run.step_looping_nil, userOps_cons_replace] at h
    | B =>
      have hl := load_ok lib uc wB reqB name user cas flightsB hauthB hbodyB huc
      simp only [Race.run, Race.trace, Race.step, Run.step, hl, Option.map_some',
        Option.toList, List.singleton_append, userOps_cons_get, List.cons.injEq,
        true_and] at h ⊢
      exact race_phase2 lib envA envB wA wB name cas user idsA addedA uc huc rest lA pA iA _
        flightsB 0 fc hA rfl rfl ⟨[], by simp⟩ h

theorem race_phase0 (lib : JwtLib) (envA envB : BookEnv)
    (wA wB : ResponseWriter jsonUserBookFlightResp)
    (reqA reqB : Request jsonUserBookFlightReq) (name : String) (cas : Cas) (user : jsonUser)
    (flightsA flightsB : List jsonBookedFlight) (uc : Collection jsonUser)
    (fc : Collection jsonBookedFlight) (huc : uc name = some (user, cas))
    (hauthA : decodeAuthUserOrFail lib wA reqA { Name := "" } = .ok (wA, { Name := name }, true))
    (hbodyA : reqA.Body = .ok { Flights := flightsA })
    (hauthB : decodeAuthUserOrFail lib wB reqB { Name := "" } = .ok (wB, { Name := name }, true))
    (hbodyB : reqB.Body = .ok { Flights := flightsB })
    (sched : List Who)
    (h : userOps (Race.trace lib envA envB ⟨.idle wA reqA, .idle wB reqB, ⟨uc, fc⟩⟩ sched) =
      [(Who.A, StoreOp.Get), (Who.B, StoreOp.Get), (Who.A, StoreOp.Replace),
        (Who.B, StoreOp.Replace)]) :
    ∃ (wa wb : ResponseWriter jsonUserBookFlightResp) (fc2 : Collection jsonBookedFlight),
      Race.run lib envA envB ⟨.idle wA reqA, .idle wB reqB, ⟨uc, fc⟩⟩ sched =
        ⟨.done (encodeRespOrFail wa ⟨⟨stamped envA 0 flightsA⟩, []⟩),
          .done (writeJsonFailure wb 500 GoError.ErrCasMismatch),
          ⟨uc.store name
            ⟨user.Name, user.Password, user.Flights ++ newIDs envA 0 flightsA.length⟩, fc2⟩⟩ ∧
      (∃ fs : List jsonFailure, wa.body = wA.body ++ fs.map .failure) ∧
      ∃ fs : List jsonFailure, wb.body = wB.body ++ fs.map .failure := by
  induction sched with
  | nil => simp [Race.trace, userOps] at h
  | cons who rest ih =>
    cases who with
    | A =>
      have hl := load_ok lib uc wA reqA name user cas flightsA hauthA hbodyA huc
      simp only [Race.run, Race.trace, Race.step, Run.step, hl, Option.map_some',
        Option.toList, List.singleton_append, userOps_cons_get, List.cons.injEq,
        true_and] at h ⊢
      exact race_phase1 lib envA envB wA wB reqB name cas user _ _ flightsB uc huc hauthB
        hbodyB rest _ flightsA 0 fc (LoopInv_init envA wA name cas user flightsA) h
    | B =>
      have hl := load_ok lib uc wB reqB name user cas flightsB hauthB hbodyB huc
      simp [Race.trace, Race.step, Run.step, hl, userOps_cons_get] at h

/-- C2: two runs of `UserBookFlight` for the same traveler, whose document
the store holds, under any schedule whose operations on the traveler document
are `Get` by A, `Get` by B, `Replace` by A, `Replace` by B in this order (the
flight-record writes of both runs interleaved in any way).  Run A commits:
its last write is the response with its stamped flights.  Run B fails with
the version conflict `ErrCasMismatch`, written as a 500 failure after nothing
but failures.  The stored traveler document has the old flight-ID list
followed by A's identifiers, under the next version token, so an identifier
of B that is not in that list is not stored.  Both runs have returned: no
further step of either changes the store or performs a store operation, so
the failed `Replace` is not retried. -/
theorem race_stale_token (lib : JwtLib) (envA envB : BookEnv) (store : Store)
    (wA wB : ResponseWriter jsonUserBookFlightResp)
    (reqA reqB : Request jsonUserBookFlightReq) (name : String) (user : jsonUser) (cas : Cas)
    (flightsA flightsB : List jsonBookedFlight) (sched : List Who)
    (hauthA : decodeAuthUserOrFail lib wA reqA { Name := "" } = .ok (wA, { Name := name }, true))
    (hbodyA : reqA.Body = .ok { Flights := flightsA })
    (hauthB : decodeAuthUserOrFail lib wB reqB { Name := "" } = .ok (wB, { Name := name }, true))
    (hbodyB : reqB.Body = .ok { Flights := flightsB })
    (hdoc : store.userCollection name = some (user, cas))
    (horder : userOps (Race.trace lib envA envB ⟨.idle wA reqA, .idle wB reqB, store⟩ sched) =
      [(Who.A, StoreOp.Get), (Who.B, StoreOp.Get), (Who.A, StoreOp.Replace),
        (Who.B, StoreOp.Replace)]) :
    ∃ (wa wb : ResponseWriter jsonUserBookFlightResp) (final : Race),
      Race.run lib envA envB ⟨.idle wA reqA, .idle wB reqB, store⟩ sched = final ∧
      final.A = .done (encodeRespOrFail wa ⟨⟨stamped envA 0 flightsA⟩, []⟩) ∧
      (∃ fs : List jsonFailure, wa.body = wA.body ++ fs.map .failure) ∧
      final.B = .done (writeJsonFailure wb 500 GoError.ErrCasMismatch) ∧
      (∃ fs : List jsonFailure, wb.body = wB.body ++ fs.map .failure) ∧
      final.store.userCollection name =
        some ({ user with Flights := user.Flights ++ newIDs envA 0 flightsA.length },
          cas + 1) ∧
      (∀ id ∈ newIDs envB 0 flightsB.length,
        id ∉ user.Flights ++ newIDs envA 0 flightsA.length →
        ∀ (doc : jsonUser) (c : Cas), final.store.userCollection name = some (doc, c) →
          id ∉ doc.Flights) ∧
      (∀ more : List Who, Race.run lib envA envB final more = final ∧
        Race.trace lib envA envB final more = []) := by
  obtain ⟨uc, fc⟩ := store
  obtain ⟨wa, wb, fc2, hrun, hwa, hwb⟩ := race_phase0 lib envA envB wA wB reqA reqB name cas
    user flightsA flightsB uc fc hdoc hauthA hbodyA hauthB hbodyB sched horder
  have hstored := store_cas uc name
    ⟨user.Name, user.Password, user.Flights ++ newIDs envA 0 flightsA.length⟩ user cas hdoc
  refine ⟨wa, wb, _, hrun, rfl, hwa, rfl, hwb, hstored, ?_, ?_⟩
  · intro id _ hid doc c hd
    simp only at hd
    rw [hstored] at hd
    cases hd
    exact hid
  · intro more
    exact race_done lib envA envB _ _ _ more

/-- C2 at two bookings by `alice`, of one flight each, under the schedule
`Get` A, `Get` B, `Upsert` A, `Upsert` B, `Replace` A, `Replace` B. -/
theorem race_stale_token_witness :
    ∃ final : Race,
      Race.run taggedLib calmEnv otherEnv
        ⟨.idle ResponseWriter.fresh (bookRequest [flightLAX]),
          .idle ResponseWriter.fresh (bookRequest [flightSEA]), aliceStore⟩
        [Who.A, Who.B, Who.A, Who.B, Who.A, Who.B] = final ∧
      final.A.response = some ⟨some 200, [.data { Data := { Added :=
        [{ flightLAX with BookedOn := "03/09/2024" }] }, Context := [] }]⟩ ∧
      final.B.response = some ⟨some 500, [.failure ⟨"cas mismatch"⟩]⟩ ∧
      final.store.userCollection "alice" =
        some (⟨"alice", "secret", ["f1", "f2", "id-0"]⟩, 8) := by
  obtain ⟨_, _, final, h1, _, _, _, _, h6, _⟩ := race_stale_token taggedLib calmEnv otherEnv
    aliceStore ResponseWriter.fresh ResponseWriter.fresh (bookRequest [flightLAX])
    (bookRequest [flightSEA]) "alice" ⟨"alice", "secret", ["f1", "f2"]⟩ 7 [flightLAX]
    [flightSEA] [Who.A, Who.B, Who.A, Who.B, Who.A, Who.B] (by decide) rfl (by decide) rfl
    (by decide) (by decide)
  subst h1
  exact ⟨_, rfl, by decide, by decide, h6⟩

end TryCb
